import Mathlib

/-!
# mDNIe register interface: `drivers/video/decon_display/mdnie_lite.c`

A shallow embedding of the table selector, the calibration patch, the write
pipeline, the sysfs setters and getters, the framebuffer callback and the
registration of the mDNIe driver, followed by the properties proved about them.

Conventions of the embedding.

* `mdnie.h` and the panel table header are not part of the source tree.  Every
  enum constant, table and helper they declare is a field of `Header` (or, for
  the two `OFF` enumerators, the zero the macros test for).
* Capabilities injected from outside the file (`ops.write`, the tuning file
  loader, the panel coordinate file) are fields of `Ext`.
* `struct mdnie_info` is `mdnie_info`; the file-scope tables are `Catalog`; both
  live in `World`, next to three ghost fields: the log of `ops.write` calls, the
  number of `mdnie_update` invocations, and a flag raised when the C code would
  dereference a NULL pointer (the call never returns in that case).
* A command sequence is a list of bytes owned by its table slot.  Reading past
  the end of a list yields 0 and writing past the end is dropped; in C both are
  out of bounds.
* Mutexes are not modelled: every function is run to completion.
-/

namespace Mdnie

/-! ## Kernel constants -/

/-- Value of `EPERM` in `errno.h`. -/
def EPERM : Int := 1

/-- Value of `ENOMEM` in `errno.h`. -/
def ENOMEM : Int := 12

/-- Value of `EINVAL` in `errno.h`. -/
def EINVAL : Int := 22

/-- Value of `FB_EVENT_BLANK` in `linux/fb.h`. -/
def FB_EVENT_BLANK : Nat := 9

/-- Value of `FB_BLANK_UNBLANK` in `linux/fb.h`. -/
def FB_BLANK_UNBLANK : Int := 0

/-- Value of `FB_BLANK_POWERDOWN` in `linux/fb.h`. -/
def FB_BLANK_POWERDOWN : Int := 4

/-- The zero enumerator of `enum ACCESSIBILITY`: the value `IS_ACCESSIBILITY`
excludes with its `idx &&` test. -/
def ACCESSIBILITY_OFF : Nat := 0

/-- The zero enumerator of `enum HBM`: the value `IS_HBM` excludes with its
`idx &&` test, and the value `kzalloc` leaves in `mdnie->hbm`. -/
def HBM_OFF : Nat := 0

/-! ## Data model -/

/-- One entry of `struct mdnie_command`: the sequence pointer (`none` is NULL)
and its declared size. -/
structure mdnie_command where
  sequence : Option (List Nat)
  size : Nat
deriving DecidableEq, Repr

/-- The `struct mdnie_table`: a name pointer and `tune[MDNIE_CMD_MAX]`. -/
@[ext]
structure mdnie_table where
  name : Option String
  tune : Nat → mdnie_command

/-- The `struct mdnie_rgb`. -/
structure mdnie_rgb where
  r : Nat
  g : Nat
  b : Nat
deriving DecidableEq, Repr

/-- Declarations of `mdnie.h` and of the panel table header that the source
uses but the tree does not contain. -/
structure Header where
  MODE_MAX : Nat
  STANDARD : Nat
  AUTO : Nat
  UI_MODE : Nat
  VIDEO_NORMAL_MODE : Nat
  CAMERA_MODE : Nat
  BROWSER_MODE : Nat
  EBOOK_MODE : Nat
  EMAIL_MODE : Nat
  SCENARIO_MAX : Nat
  DMB_NORMAL_MODE : Nat
  BYPASS_OFF : Nat
  BYPASS_ON : Nat
  BYPASS_MAX : Nat
  COLOR_BLIND : Nat
  ACCESSIBILITY_MAX : Nat
  HBM_MAX : Nat
  LEVEL1_KEY_UNLOCK : Nat
  MDNIE_CMD1 : Nat
  MDNIE_CMD2 : Nat
  LEVEL1_KEY_LOCK : Nat
  MDNIE_CMD_MAX : Nat
  MDNIE_WHITE_R : Nat
  MDNIE_WHITE_G : Nat
  MDNIE_WHITE_B : Nat
  MDNIE_COLOR_BLIND_OFFSET : Nat
  /-- The `sizeof(mdnie->path)`. -/
  PATH_SIZE : Nat
  /-- Whether `CONFIG_TDMB` is defined. -/
  CONFIG_TDMB : Bool
  /-- The step function from a lux reading to an HBM level. -/
  get_hbm_index : Int → Nat
  /-- The calibration table `coordinate_data[idx][k]`. -/
  coordinate_data : Nat → Nat → Nat
  COLOR_OFFSET_F1 : Int → Int → Int
  COLOR_OFFSET_F2 : Int → Int → Int
  COLOR_OFFSET_F3 : Int → Int → Int
  COLOR_OFFSET_F4 : Int → Int → Int
  /-- The classification of the four offsets into a calibration index. -/
  mdnie_calibration : Int → Int → Int → Int → Int

/-- What `sscanf(fp, "%8d, %8d", &x, &y)` yields on the coordinate file. -/
structure PanelScan where
  matched : Int
  x : Int
  y : Int

/-- Capabilities and files outside `mdnie_lite.c`. -/
structure Ext where
  /-- The result of `ops.write(data, sequence, size)`; the first argument is the
  number of writes issued before this one, so every call may have its own
  outcome. -/
  ops_write : Nat → Option (List Nat) → Nat → Int
  /-- The tuning file loader `mdnie_request_table(path, table)`: a table pointer,
  possibly NULL, possibly with a NULL name. -/
  mdnie_request_table : List Char → mdnie_table → Option mdnie_table
  /-- The coordinate file: `none` when `mdnie_open_file` fails. -/
  panel_file : Option PanelScan

/-- Fields of `struct mdnie_info` that the code reads or writes. -/
structure mdnie_info where
  enable : Nat
  scenario : Nat
  mode : Nat
  bypass : Nat
  hbm : Nat
  tuning : Nat
  accessibility : Nat
  color_correction : Nat
  path : List Char
  wrgb_current : mdnie_rgb
  table_buffer : mdnie_table
  sequence_buffer : List Nat

/-- The file-scope tables of the panel table header. -/
@[ext]
structure Catalog where
  tuning_table : Nat → Nat → mdnie_table
  accessibility_table : Nat → mdnie_table
  hbm_table : Nat → mdnie_table
  bypass_table : Nat → mdnie_table
  dmb_table : Nat → mdnie_table

/-- A pointer into the catalog, as `mdnie_find_table` returns it. -/
inductive TableRef where
  | accessibility (idx : Nat)
  | hbm (idx : Nat)
  | dmb (mode : Nat)
  | tuning (scenario : Nat) (mode : Nat)
deriving DecidableEq, Repr

/-- The table a catalog pointer points to. -/
def Catalog.deref (c : Catalog) : TableRef → mdnie_table
  | .accessibility i => c.accessibility_table i
  | .hbm i => c.hbm_table i
  | .dmb m => c.dmb_table m
  | .tuning s m => c.tuning_table s m

/-- The device, the catalog and the ghost observations. -/
structure World where
  mdnie : mdnie_info
  cat : Catalog
  /-- Ghost: the commands handed to `ops.write`, oldest first. -/
  wlog : List mdnie_command
  /-- Ghost: how many times `mdnie_update` was entered. -/
  updates : Nat
  /-- Ghost: a NULL pointer was dereferenced. -/
  oops : Bool

/-! ## Macros -/

/-- The macro `IS_DMB(idx)`. -/
def IS_DMB (h : Header) (idx : Nat) : Bool :=
  idx == h.DMB_NORMAL_MODE

/-- The macro `IS_SCENARIO(idx)`. -/
def IS_SCENARIO (h : Header) (idx : Nat) : Bool :=
  decide (idx < h.SCENARIO_MAX) &&
    !(decide (idx > h.VIDEO_NORMAL_MODE) && decide (idx < h.CAMERA_MODE))

/-- The macro `IS_ACCESSIBILITY(idx)`. -/
def IS_ACCESSIBILITY (h : Header) (idx : Nat) : Bool :=
  idx != 0 && decide (idx < h.ACCESSIBILITY_MAX)

/-- The macro `IS_HBM(idx)`. -/
def IS_HBM (h : Header) (idx : Nat) : Bool :=
  idx != 0 && decide (idx < h.HBM_MAX)

/-- The macro `SCENARIO_IS_VALID(idx)`. -/
def SCENARIO_IS_VALID (h : Header) (idx : Nat) : Bool :=
  IS_DMB h idx || IS_SCENARIO h idx

/-- The macro `GET_MSB_8BIT(x)`. -/
def GET_MSB_8BIT (x : Nat) : Nat :=
  (x >>> 8) &&& (2 ^ 8 - 1)

/-- The macro `GET_LSB_8BIT(x)`. -/
def GET_LSB_8BIT (x : Nat) : Nat :=
  (x >>> 0) &&& (2 ^ 8 - 1)

/-! ## Selector -/

/-- The function `mdnie_find_table`: `none` is the NULL it returns when no
branch matches. -/
def mdnie_find_table (h : Header) (m : mdnie_info) : Option TableRef :=
  if IS_ACCESSIBILITY h m.accessibility then
    some (TableRef.accessibility m.accessibility)
  else if IS_HBM h m.hbm then
    some (TableRef.hbm m.hbm)
  else if h.CONFIG_TDMB && IS_DMB h m.scenario then
    some (TableRef.dmb m.mode)
  else if IS_SCENARIO h m.scenario then
    some (TableRef.tuning m.scenario m.mode)
  else
    none

/-! ## Dispatcher -/

/-- One round of the loop of `mdnie_write`: the write is guarded by
`mdnie->enable` and its result replaces `ret`. -/
def mdnie_write_step (x : Ext) (table : mdnie_table) (acc : World × Int) (i : Nat) :
    World × Int :=
  if acc.1.mdnie.enable ≠ 0 then
    ({ acc.1 with wlog := acc.1.wlog ++ [table.tune i] },
      x.ops_write acc.1.wlog.length (table.tune i).sequence (table.tune i).size)
  else acc

/-- The function `mdnie_write`: one round per slot of `table->tune`, in index
order, starting from `ret = 0`. `ARRAY_SIZE(table->tune)` is `MDNIE_CMD_MAX`. -/
def mdnie_write (h : Header) (x : Ext) (w : World) (table : mdnie_table) : World × Int :=
  List.foldl (mdnie_write_step x table) (w, 0) (List.range h.MDNIE_CMD_MAX)

/-- The function `mdnie_write_table`: `-EPERM` when a sequence pointer is NULL,
else the result of `mdnie_write`. -/
def mdnie_write_table (h : Header) (x : Ext) (w : World) (table : mdnie_table) : World × Int :=
  if (List.range h.MDNIE_CMD_MAX).any (fun i => (table.tune i).sequence.isNone) then
    (w, -EPERM)
  else
    mdnie_write h x w table

/-- The function `mdnie_update_sequence`: writes the table loaded from the tuning
file when tuning is on and the loader gave a named table, else `table`; the
result of the write is dropped. -/
def mdnie_update_sequence (h : Header) (x : Ext) (w : World) (table : mdnie_table) : World :=
  if w.mdnie.tuning ≠ 0 then
    match x.mdnie_request_table w.mdnie.path table with
    | some t =>
      if t.name.isSome then (mdnie_write_table h x w t).1
      else (mdnie_write_table h x w table).1
    | none => (mdnie_write_table h x w table).1
  else
    (mdnie_write_table h x w table).1

/-- The function `mdnie_update`. The white point is read from CMD1 of the
selected table without a NULL test. -/
def mdnie_update (h : Header) (x : Ext) (w0 : World) : World :=
  let w : World := { w0 with updates := w0.updates + 1 }
  if w.mdnie.enable = 0 then w
  else
    match mdnie_find_table h w.mdnie with
    | none => w
    | some r =>
      let table := w.cat.deref r
      if table.name.isSome then
        let w1 := mdnie_update_sequence h x w table
        match (table.tune h.MDNIE_CMD1).sequence with
        | none => { w1 with oops := true }
        | some seq =>
          { w1 with mdnie := { w1.mdnie with wrgb_current :=
              { r := seq.getD h.MDNIE_WHITE_R 0,
                g := seq.getD h.MDNIE_WHITE_G 0,
                b := seq.getD h.MDNIE_WHITE_B 0 } } }
      else w

/-! ## Calibrator -/

/-- The sentinel test of `update_color_position` on one CMD1 buffer. -/
def white_is_sentinel (h : Header) (wbuf : List Nat) : Bool :=
  wbuf.getD h.MDNIE_WHITE_R 0 == 0xff &&
    wbuf.getD h.MDNIE_WHITE_G 0 == 0xff &&
    wbuf.getD h.MDNIE_WHITE_B 0 == 0xff

/-- The three stores of `update_color_position` into one CMD1 buffer, in source
order; a store into a byte keeps the low eight bits. -/
def patch_white (h : Header) (idx : Nat) (wbuf : List Nat) : List Nat :=
  ((wbuf.set h.MDNIE_WHITE_R (h.coordinate_data idx 0 % 256)).set
      h.MDNIE_WHITE_G (h.coordinate_data idx 1 % 256)).set
      h.MDNIE_WHITE_B (h.coordinate_data idx 2 % 256)

/-- A table with the bytes of its CMD1 sequence replaced. -/
def mdnie_table.with_cmd1 (h : Header) (t : mdnie_table) (wbuf : List Nat) : mdnie_table :=
  { t with tune := fun i =>
      if i = h.MDNIE_CMD1 then { sequence := some wbuf, size := (t.tune i).size }
      else t.tune i }

/-- The body of the two loops of `update_color_position` on one table. -/
def patch_table (h : Header) (idx : Nat) (t : mdnie_table) : mdnie_table :=
  match (t.tune h.MDNIE_CMD1).sequence with
  | none => t
  | some wbuf =>
    if white_is_sentinel h wbuf then t.with_cmd1 h (patch_white h idx wbuf) else t

/-- The loop body of `update_color_position` at `tuning_table[scenario][mode]`. -/
def color_position_step (h : Header) (idx : Nat) (mode : Nat) (c : Catalog)
    (scenario : Nat) : Catalog :=
  { c with tuning_table := fun s m =>
      if s = scenario ∧ m = mode then patch_table h idx (c.tuning_table s m)
      else c.tuning_table s m }

/-- The function `update_color_position`: `mode` runs over `0 .. MODE_MAX - 1`
and, inside, `scenario` over `0 .. EMAIL_MODE`. Both counters are `u8` in the
source, so the ranges are those of the source when `MODE_MAX <= 255` and
`EMAIL_MODE < 255`. -/
def update_color_position (h : Header) (w : World) (idx : Nat) : World :=
  let cat :=
    List.foldl
      (fun c mode => List.foldl (color_position_step h idx mode) c (List.range (h.EMAIL_MODE + 1)))
      w.cat (List.range h.MODE_MAX)
  { w with cat := cat }

/-- The function `get_panel_coordinate`: the return value and the sticky flag. -/
def get_panel_coordinate (h : Header) (x : Ext) (w : World) : World × Int :=
  let ret : Int :=
    match x.panel_file with
    | none => -EINVAL
    | some scan =>
      if scan.matched ≠ 2 ∨ (scan.x = 0 ∧ scan.y = 0) then -EINVAL
      else
        h.mdnie_calibration (h.COLOR_OFFSET_F1 scan.x scan.y) (h.COLOR_OFFSET_F2 scan.x scan.y)
          (h.COLOR_OFFSET_F3 scan.x scan.y) (h.COLOR_OFFSET_F4 scan.x scan.y)
  ({ w with mdnie := { w.mdnie with color_correction := 1 } }, ret)

/-! ## State controller

Each `*_store` takes what its parser produced from `buf` (the return value of
`kstrtouint`, `kstrtoint` or `sscanf` and the variables it filled) and `count`,
and returns the new world and the `ssize_t` result. When the ghost flag `oops`
is raised in the new world the C call did not return and the number is void. -/

/-- The function `mode_store`. -/
def mode_store (h : Header) (x : Ext) (w : World) (ret : Int) (value : Nat) (count : Nat) :
    World × Int :=
  if ret < 0 then (w, ret)
  else if value ≥ h.MODE_MAX then (w, -EINVAL)
  else
    let w1 : World := { w with mdnie := { w.mdnie with mode := value } }
    let w2 : World :=
      if w1.mdnie.color_correction = 0 then
        let r := get_panel_coordinate h x w1
        if r.2 > 0 then update_color_position h r.1 r.2.toNat else r.1
      else w1
    (mdnie_update h x w2, (count : Int))

/-- The function `scenario_store`. -/
def scenario_store (h : Header) (x : Ext) (w : World) (ret : Int) (value : Nat) (count : Nat) :
    World × Int :=
  if ret < 0 then (w, ret)
  else
    let value := if !SCENARIO_IS_VALID h value then h.UI_MODE else value
    let w1 : World := { w with mdnie := { w.mdnie with scenario := value } }
    (mdnie_update h x w1, (count : Int))

/-- The kernel helper `sysfs_streq` on NUL-free strings: equal up to one trailing
newline. -/
def sysfs_streq (s1 s2 : List Char) : Bool :=
  s1 == s2 || s1 == s2 ++ [Char.ofNat 10] || s1 ++ [Char.ofNat 10] == s2

/-- The string `MDNIE_SYSFS_PREFIX`; its `sizeof` is 15. -/
def MDNIE_SYSFS_PREFIX : List Char :=
  String.toList "/sdcard/mdnie/"

/-- The function `tuning_store`. On the buffers "0" and "1" `kstrtouint` cannot
fail and stores the digit. `snprintf` with size `sizeof(MDNIE_SYSFS_PREFIX) +
count - 1` keeps one character less than its size. The subtraction of the two
`sizeof` is made in `size_t`, taken as 64 bits wide. -/
def tuning_store (h : Header) (x : Ext) (w : World) (buf : List Char) (count : Nat) :
    World × Int :=
  if sysfs_streq buf [Char.ofNat 48] || sysfs_streq buf [Char.ofNat 49] then
    let v : Nat := if sysfs_streq buf [Char.ofNat 48] then 0 else 1
    let w1 : World := { w with mdnie := { w.mdnie with tuning := v } }
    let w2 : World := if v = 0 then { w1 with mdnie := { w1.mdnie with path := [] } } else w1
    (w2, (count : Int))
  else if w.mdnie.tuning = 0 then (w, (count : Int))
  else if count > (h.PATH_SIZE + 2 ^ 64 - 15) % 2 ^ 64 then (w, -ENOMEM)
  else
    let path := List.take (15 + count - 1 - 1) ( MDNIE_SYSFS_PREFIX ++ buf)
    let w1 : World := { w with mdnie := { w.mdnie with path := path } }
    (mdnie_update h x w1, (count : Int))

/-- The `while (i < ret - 1)` loop of `accessibility_store` on the CMD1 bytes of
the colour blind table, for `n` rounds. -/
def color_blind_fill (h : Header) (sv : List Nat) (n : Nat) (seq : List Nat) : List Nat :=
  List.foldl
    (fun q i =>
      (q.set (h.MDNIE_COLOR_BLIND_OFFSET + (i * 2 + 0)) (GET_LSB_8BIT (sv.getD i 0))).set
        (h.MDNIE_COLOR_BLIND_OFFSET + (i * 2 + 1)) (GET_MSB_8BIT (sv.getD i 0)))
    seq (List.range n)

/-- The function `accessibility_store`; `ret`, `value` and `sv` (the array `s`,
nine words) are what `sscanf` produced. The loop bound `ret - 1` is compared
with the unsigned `i`, hence taken modulo `2 ^ 32`; a bound above the nine words
of `s`, or a NULL CMD1 sequence that is written to, raises the ghost flag. -/
def accessibility_store (h : Header) (x : Ext) (w : World) (ret : Int) (value : Nat)
    (sv : List Nat) (count : Nat) : World × Int :=
  if ret < 0 then (w, ret)
  else if value ≥ h.ACCESSIBILITY_MAX then (w, -EINVAL)
  else
    let w1 : World := { w with mdnie := { w.mdnie with accessibility := value } }
    if value = h.COLOR_BLIND then
      if ret > 9 + 1 then (w1, -EINVAL)
      else
        let n : Nat := ((ret - 1) % 2 ^ 32).toNat
        let t := w1.cat.accessibility_table h.COLOR_BLIND
        if n = 0 then (mdnie_update h x w1, (count : Int))
        else if n > 9 then ({ w1 with oops := true }, 0)
        else
          match (t.tune h.MDNIE_CMD1).sequence with
          | none => ({ w1 with oops := true }, 0)
          | some seq =>
            let t1 := t.with_cmd1 h (color_blind_fill h sv n seq)
            let w2 : World := { w1 with cat := { w1.cat with accessibility_table := fun i =>
              if i = h.COLOR_BLIND then t1 else w1.cat.accessibility_table i } }
            (mdnie_update h x w2, (count : Int))
    else (mdnie_update h x w1, (count : Int))

/-- The function `bypass_store`; `&bypass_table[value]` is never NULL. -/
def bypass_store (h : Header) (x : Ext) (w : World) (ret : Int) (value : Nat) (count : Nat) :
    World × Int :=
  if ret < 0 then (w, ret)
  else if value ≥ h.BYPASS_MAX then (w, -EINVAL)
  else
    let value := if value ≠ 0 then h.BYPASS_ON else h.BYPASS_OFF
    let w1 : World := { w with mdnie := { w.mdnie with bypass := value } }
    ((mdnie_write_table h x w1 (w1.cat.bypass_table value)).1, (count : Int))

/-- The function `lux_store`; `value` is the parsed lux. -/
def lux_store (h : Header) (x : Ext) (w : World) (ret : Int) (value : Int) (count : Nat) :
    World × Int :=
  if ret < 0 then (w, ret)
  else
    let hbm := h.get_hbm_index value
    let update : Nat := if w.mdnie.hbm ≠ hbm then 1 else 0
    let w1 : World :=
      { w with mdnie := { w.mdnie with hbm := if update ≠ 0 then hbm else w.mdnie.hbm } }
    if update ≠ 0 then (mdnie_update h x w1, (count : Int))
    else (w1, (count : Int))

/-- The function `sensorRGB_store`. The two `memcpy` fill the request buffers;
`table_buffer.tune[MDNIE_CMD1].sequence` then points at `sequence_buffer`, so the
three stores land in both. A NULL table or a NULL CMD1 sequence handed to
`memcpy` raises the ghost flag. -/
def sensorRGB_store (h : Header) (x : Ext) (w : World) (ret : Int)
    (white_r white_g white_b : Nat) (count : Nat) : World × Int :=
  if ret < 0 then (w, ret)
  else if w.mdnie.enable ≠ 0 ∧ w.mdnie.accessibility = ACCESSIBILITY_OFF ∧
      w.mdnie.mode = h.AUTO ∧
      (w.mdnie.scenario = h.BROWSER_MODE ∨ w.mdnie.scenario = h.EBOOK_MODE) then
    match mdnie_find_table h w.mdnie with
    | none => ({ w with oops := true }, 0)
    | some r =>
      let table := w.cat.deref r
      match (table.tune h.MDNIE_CMD1).sequence with
      | none => ({ w with oops := true }, 0)
      | some seq =>
        let copied := List.take (table.tune h.MDNIE_CMD1).size seq ++
          List.drop (table.tune h.MDNIE_CMD1).size w.mdnie.sequence_buffer
        let buf :=
          ((copied.set h.MDNIE_WHITE_R (white_r % 256)).set
            h.MDNIE_WHITE_G (white_g % 256)).set h.MDNIE_WHITE_B (white_b % 256)
        let tb := table.with_cmd1 h buf
        let w1 : World :=
          { w with mdnie := { w.mdnie with
              table_buffer := tb,
              sequence_buffer := buf,
              wrgb_current := { r := white_r % 256, g := white_g % 256, b := white_b % 256 } } }
        (mdnie_update_sequence h x w1 tb, (count : Int))
  else (w, (count : Int))

/-- The function `fb_notifier_callback`; the result is `NOTIFY_DONE`. -/
def fb_notifier_callback (h : Header) (x : Ext) (w : World) (event : Nat) (fb_blank : Int) :
    World × Int :=
  if event ≠ FB_EVENT_BLANK then (w, 0)
  else if fb_blank = FB_BLANK_UNBLANK then
    (mdnie_update h x { w with mdnie := { w.mdnie with enable := 1 } }, 0)
  else if fb_blank = FB_BLANK_POWERDOWN then
    ({ w with mdnie := { w.mdnie with enable := 0 } }, 0)
  else (w, 0)

/-- One call of a setter of the sysfs surface, with its parsed arguments. -/
inductive Setter where
  | mode (ret : Int) (value : Nat) (count : Nat)
  | scenario (ret : Int) (value : Nat) (count : Nat)
  | tuning (buf : List Char) (count : Nat)
  | accessibility (ret : Int) (value : Nat) (sv : List Nat) (count : Nat)
  | bypass (ret : Int) (value : Nat) (count : Nat)
  | lux (ret : Int) (value : Int) (count : Nat)
  | sensorRGB (ret : Int) (white_r white_g white_b : Nat) (count : Nat)

/-- The world after one setter call. -/
def Setter.run (h : Header) (x : Ext) (w : World) : Setter → World
  | .mode ret value count => (mode_store h x w ret value count).1
  | .scenario ret value count => (scenario_store h x w ret value count).1
  | .tuning buf count => (tuning_store h x w buf count).1
  | .accessibility ret value sv count => (accessibility_store h x w ret value sv count).1
  | .bypass ret value count => (bypass_store h x w ret value count).1
  | .lux ret value count => (lux_store h x w ret value count).1
  | .sensorRGB ret r g b count => (sensorRGB_store h x w ret r g b count).1

/-- The world after a sequence of setter calls, first call first. -/
def run_setters (h : Header) (x : Ext) (w : World) (calls : List Setter) : World :=
  calls.foldl (Setter.run h x) w

/-! ## Concrete instances

One instance of the header, of the capabilities and of the world, on which the
model is evaluated below. -/

/-- A header instance: five modes, thirteen scenarios with the reserved gap
`2 .. 3`, six accessibility kinds, three HBM levels, four command slots. -/
def demo_header : Header :=
  { MODE_MAX := 5, STANDARD := 1, AUTO := 4,
    UI_MODE := 0, VIDEO_NORMAL_MODE := 1, CAMERA_MODE := 4, BROWSER_MODE := 8,
    EBOOK_MODE := 9, EMAIL_MODE := 10, SCENARIO_MAX := 13, DMB_NORMAL_MODE := 20,
    BYPASS_OFF := 0, BYPASS_ON := 1, BYPASS_MAX := 2,
    COLOR_BLIND := 2, ACCESSIBILITY_MAX := 6, HBM_MAX := 3,
    LEVEL1_KEY_UNLOCK := 0, MDNIE_CMD1 := 1, MDNIE_CMD2 := 2, LEVEL1_KEY_LOCK := 3,
    MDNIE_CMD_MAX := 4,
    MDNIE_WHITE_R := 1, MDNIE_WHITE_G := 3, MDNIE_WHITE_B := 5,
    MDNIE_COLOR_BLIND_OFFSET := 7,
    PATH_SIZE := 50, CONFIG_TDMB := false,
    get_hbm_index := fun lux => if lux < 40000 then 0 else 1,
    coordinate_data := fun idx k => if k = 0 then 0xf0 + idx else if k = 1 then 0xf2 else 0xf4,
    COLOR_OFFSET_F1 := fun a b => a + b,
    COLOR_OFFSET_F2 := fun a b => a - b,
    COLOR_OFFSET_F3 := fun a _ => a,
    COLOR_OFFSET_F4 := fun _ b => b,
    mdnie_calibration := fun _ _ _ _ => 1 }

/-- A table with all four sequences present and the sentinel white point. -/
def demo_table : mdnie_table :=
  { name := some "DEMO",
    tune := fun i =>
      if i = 0 then { sequence := some [0xf0, 0x5a, 0x5a], size := 3 }
      else if i = 1 then { sequence := some [0xec, 0xff, 0x00, 0xff, 0x00, 0xff, 0x00, 0x01], size := 8 }
      else if i = 2 then { sequence := some [0xeb, 0x01, 0x00], size := 3 }
      else { sequence := some [0xf0, 0xa5, 0xa5], size := 3 } }

/-- A catalog with `demo_table` in every slot. -/
def demo_catalog : Catalog :=
  { tuning_table := fun _ _ => demo_table,
    accessibility_table := fun _ => demo_table,
    hbm_table := fun _ => demo_table,
    bypass_table := fun _ => demo_table,
    dmb_table := fun _ => demo_table }

/-- The device as `mdnie_register` leaves it before its first update. -/
def demo_info : mdnie_info :=
  { enable := 1, scenario := 0, mode := 1, bypass := 0, hbm := 0, tuning := 0,
    accessibility := 0, color_correction := 0, path := [],
    wrgb_current := { r := 0, g := 0, b := 0 },
    table_buffer := { name := none, tune := fun _ => { sequence := none, size := 0 } },
    sequence_buffer := List.replicate 256 0 }

/-- A world on `demo_catalog` with an empty write log. -/
def demo_world : World :=
  { mdnie := demo_info, cat := demo_catalog, wlog := [], updates := 0, oops := false }

/-- A write capability that always succeeds, no tuning file, no coordinate file. -/
def demo_ext : Ext :=
  { ops_write := fun _ _ _ => 0,
    mdnie_request_table := fun _ _ => none,
    panel_file := none }

/-- Whether CMD1 of a table is present and carries the sentinel white point
`(0xff, 0xff, 0xff)`. -/
def table_is_sentinel (h : Header) (t : mdnie_table) : Bool :=
  match (t.tune h.MDNIE_CMD1).sequence with
  | none => false
  | some wbuf => white_is_sentinel h wbuf

/-- The catalog after the loop body of `update_color_position` has run on every
`tuning_table[s][m]` with `m < modes` and `s < scenarios`. -/
def patched_catalog (h : Header) (idx : Nat) (c : Catalog) (modes scenarios : Nat) : Catalog :=
  { c with tuning_table := fun s m =>
      if m < modes ∧ s < scenarios then patch_table h idx (c.tuning_table s m)
      else c.tuning_table s m }

/-- A sequence of `lux_store` calls whose parser succeeded, given as the pairs
`(lux, count)`. -/
def lux_calls (calls : List (Int × Nat)) : List Setter :=
  calls.map (fun c => Setter.lux 0 c.1 c.2)

/-- A write capability whose first call fails with `-5` and whose later calls
succeed. -/
def first_write_fails : Ext :=
  { demo_ext with ops_write := fun n _ _ => if n = 0 then -5 else 0 }

/-! ## Getters

A `*_show` fills `buf` through `sprintf` and returns the number of characters
written, or a negative errno. The text is a list of characters; `%d` prints a
field as a C `int`. -/

/-- The `struct mdnie_info` as `kzalloc` returns it; `bufsize` is the length of
`sequence_buffer`. -/
def kzalloc_mdnie_info (bufsize : Nat) : mdnie_info :=
  { enable := 0, scenario := 0, mode := 0, bypass := 0, hbm := 0, tuning := 0,
    accessibility := 0, color_correction := 0, path := [],
    wrgb_current := { r := 0, g := 0, b := 0 },
    table_buffer := { name := none, tune := fun _ => { sequence := none, size := 0 } },
    sequence_buffer := List.replicate bufsize 0 }

/-- The function `mdnie_register` on the catalog `cat`. The three flags say
whether `class_create`, `kzalloc` and `device_create` succeed; on success the
result is the registered world and 0. -/
def mdnie_register (h : Header) (x : Ext) (cat : Catalog) (bufsize : Nat)
    (class_ok alloc_ok device_ok : Bool) : Option World × Int :=
  if !class_ok then (none, -EINVAL)
  else if !alloc_ok then (none, -ENOMEM)
  else if !device_ok then (none, -EINVAL)
  else
    let m : mdnie_info :=
      { kzalloc_mdnie_info bufsize with
        scenario := h.UI_MODE, mode := h.STANDARD, enable := 0, tuning := 0,
        accessibility := ACCESSIBILITY_OFF, bypass := h.BYPASS_OFF }
    let w : World :=
      { mdnie := { m with enable := 1 }, cat := cat, wlog := [], updates := 0, oops := false }
    (some (mdnie_update h x w), 0)

/-- One call from outside: a setter of the sysfs surface or a framebuffer
event. -/
inductive Call where
  | setter (c : Setter)
  | power (event : Nat) (fb_blank : Int)

/-- The world after one call. -/
def Call.run (h : Header) (x : Ext) (w : World) : Call → World
  | .setter c => c.run h x w
  | .power event fb_blank => (fb_notifier_callback h x w event fb_blank).1

/-- The world after a sequence of calls, first call first. -/
def run_calls (h : Header) (x : Ext) (w : World) (calls : List Call) : World :=
  calls.foldl (Call.run h x) w

/-- The bounds claimed of the device fields: `mode`, `accessibility` and
`bypass` below their `_MAX`, and `scenario` a valid ordinary scenario or the DMB
marker. -/
def domain_invariant (h : Header) (m : mdnie_info) : Prop :=
  m.mode < h.MODE_MAX ∧ m.accessibility < h.ACCESSIBILITY_MAX ∧ m.bypass < h.BYPASS_MAX ∧
    SCENARIO_IS_VALID h m.scenario = true

/-- Whether the indices of a catalog pointer lie inside their enums. -/
def TableRef.in_domain (h : Header) : TableRef → Prop
  | .accessibility idx => idx < h.ACCESSIBILITY_MAX
  | .hbm idx => idx < h.HBM_MAX
  | .dmb mode => mode < h.MODE_MAX
  | .tuning scenario mode => scenario < h.SCENARIO_MAX ∧ mode < h.MODE_MAX

/-- A table whose CMD1 sequence is long enough for the nine words of the colour
blind payload. -/
def wide_table : mdnie_table :=
  { name := some "WIDE",
    tune := fun i =>
      if i = 1 then { sequence := some (0xec :: List.replicate 25 0), size := 26 }
      else demo_table.tune i }

/-- The demo world with `wide_table` in every accessibility slot. -/
def wide_world : World :=
  { demo_world with cat := { demo_catalog with accessibility_table := fun _ => wide_table } }

/-- The catalog with `accessibility_table[COLOR_BLIND]` replaced by `t`. -/
def Catalog.with_color_blind (h : Header) (c : Catalog) (t : mdnie_table) : Catalog :=
  { c with accessibility_table := fun i =>
      if i = h.COLOR_BLIND then t else c.accessibility_table i }

/-- The world `mdnie_register` leaves on the demo catalog. -/
def demo_registered : World :=
  (mdnie_register demo_header demo_ext demo_catalog 256 true true true).1.getD demo_world

/-- What every store leaves in `accessibility` and `hbm`: `accessibility` is OFF
or a kind below `ACCESSIBILITY_MAX`, and `hbm` is OFF or a value returned by
`get_hbm_index`. -/
def level_invariant (h : Header) (m : mdnie_info) : Prop :=
  (m.accessibility = ACCESSIBILITY_OFF ∨ m.accessibility < h.ACCESSIBILITY_MAX) ∧
    (m.hbm = HBM_OFF ∨ ∃ lux : Int, m.hbm = h.get_hbm_index lux)

/-- C2. With accessibility OFF and HBM OFF, a valid ordinary scenario
(`scenario < SCENARIO_MAX`, not strictly between `VIDEO_NORMAL_MODE` and
`CAMERA_MODE`) and `mode < MODE_MAX`, `mdnie_find_table` returns the address of
`tuning_table[scenario][mode]`. The header is assumed to keep the DMB marker
outside the ordinary scenarios when `CONFIG_TDMB` is defined. -/
theorem find_table_ordinary_scenario (h : Header) (m : mdnie_info)
    (hdmb : h.CONFIG_TDMB = true → IS_SCENARIO h h.DMB_NORMAL_MODE = false)
    (hacc : m.accessibility = ACCESSIBILITY_OFF) (hhbm : m.hbm = HBM_OFF)
    (hmax : m.scenario < h.SCENARIO_MAX)
    (hgap : ¬ (h.VIDEO_NORMAL_MODE < m.scenario ∧ m.scenario < h.CAMERA_MODE))
    (_hmode : m.mode < h.MODE_MAX) :
    mdnie_find_table h m = some (TableRef.tuning m.scenario m.mode) := by
  have hsc : IS_SCENARIO h m.scenario = true := by
    simp only [ IS_SCENARIO, Bool.and_eq_true, Bool.not_eq_true', decide_eq_true_eq,
      Bool.and_eq_false_imp, decide_eq_false_iff_not]
    exact ⟨hmax, fun hv hc => hgap ⟨hv, hc⟩⟩
  have hnd : (h.CONFIG_TDMB && IS_DMB h m.scenario) = false := by
    cases hc : h.CONFIG_TDMB
    · rfl
    · cases hd : IS_DMB h m.scenario
      · rfl
      · have heq : m.scenario = h.DMB_NORMAL_MODE := by simpa [IS_DMB] using hd
        have := hdmb hc
        rw [← heq, hsc] at this
        exact absurd this (by decide)
  simp [mdnie_find_table, IS_ACCESSIBILITY, IS_HBM, hacc, hhbm, ACCESSIBILITY_OFF, HBM_OFF,
    hnd, hsc]

/-- Witness of C2: the browser scenario in AUTO mode on the demo header. -/
theorem find_table_ordinary_scenario_witness :
    mdnie_find_table demo_header { demo_info with scenario := 8, mode := 4 } =
      some (TableRef.tuning 8 4) :=
  find_table_ordinary_scenario demo_header { demo_info with scenario := 8, mode := 4 }
    (by decide) rfl rfl (by decide) (by decide) (by decide)

/-- The selector on an accessibility value of the enum: not OFF and below
`ACCESSIBILITY_MAX`, whatever the scenario, mode and HBM level. -/
theorem find_table_accessibility_wins (h : Header) (m : mdnie_info)
    (hoff : m.accessibility ≠ ACCESSIBILITY_OFF)
    (hmax : m.accessibility < h.ACCESSIBILITY_MAX) :
    mdnie_find_table h m = some (TableRef.accessibility m.accessibility) := by
  have hoff0 : m.accessibility ≠ 0 := hoff
  simp [mdnie_find_table, IS_ACCESSIBILITY, hoff0, hmax]

/-- The selector on an HBM level of the enum (not OFF and below `HBM_MAX`) with
accessibility OFF, whatever the scenario and mode. -/
theorem find_table_hbm_wins (h : Header) (m : mdnie_info)
    (hacc : m.accessibility = ACCESSIBILITY_OFF)
    (hoff : m.hbm ≠ HBM_OFF) (hmax : m.hbm < h.HBM_MAX) :
    mdnie_find_table h m = some (TableRef.hbm m.hbm) := by
  have hoff0 : m.hbm ≠ 0 := hoff
  simp [mdnie_find_table, IS_ACCESSIBILITY, IS_HBM, hacc, ACCESSIBILITY_OFF, hoff0, hmax]

/-! ## Frame lemmas of the dispatcher -/

theorem write_loop_disabled (x : Ext) (table : mdnie_table) (l : List Nat) (w : World) (r : Int)
    (hoff : w.mdnie.enable = 0) :
    List.foldl (mdnie_write_step x table) (w, r) l = (w, r) := by
  induction l with
  | nil => rfl
  | cons i l ih =>
    have hstep : mdnie_write_step x table (w, r) i = (w, r) := by
      simp [mdnie_write_step, hoff]
    rw [List.foldl_cons, hstep, ih]

theorem mdnie_write_disabled (h : Header) (x : Ext) (w : World) (table : mdnie_table)
    (hoff : w.mdnie.enable = 0) : mdnie_write h x w table = (w, 0) :=
  write_loop_disabled x table _ w 0 hoff

theorem mdnie_write_table_disabled (h : Header) (x : Ext) (w : World) (table : mdnie_table)
    (hoff : w.mdnie.enable = 0) : (mdnie_write_table h x w table).1 = w := by
  unfold mdnie_write_table
  split
  · rfl
  · rw [mdnie_write_disabled h x w table hoff]

theorem mdnie_update_disabled (h : Header) (x : Ext) (w : World)
    (hoff : w.mdnie.enable = 0) :
    mdnie_update h x w = { w with updates := w.updates + 1 } := by
  simp [mdnie_update, hoff]

theorem write_step_frame (x : Ext) (table : mdnie_table) (acc : World × Int) (i : Nat) :
    (mdnie_write_step x table acc i).1.mdnie = acc.1.mdnie ∧
    (mdnie_write_step x table acc i).1.cat = acc.1.cat ∧
    (mdnie_write_step x table acc i).1.updates = acc.1.updates ∧
    (mdnie_write_step x table acc i).1.oops = acc.1.oops := by
  unfold mdnie_write_step
  split <;> simp

theorem write_loop_frame (x : Ext) (table : mdnie_table) (l : List Nat) (acc : World × Int) :
    (List.foldl (mdnie_write_step x table) acc l).1.mdnie = acc.1.mdnie ∧
    (List.foldl (mdnie_write_step x table) acc l).1.cat = acc.1.cat ∧
    (List.foldl (mdnie_write_step x table) acc l).1.updates = acc.1.updates ∧
    (List.foldl (mdnie_write_step x table) acc l).1.oops = acc.1.oops := by
  induction l generalizing acc with
  | nil => simp
  | cons i l ih =>
    simp only [List.foldl_cons]
    obtain ⟨h1, h2, h3, h4⟩ := ih (mdnie_write_step x table acc i)
    obtain ⟨g1, g2, g3, g4⟩ := write_step_frame x table acc i
    exact ⟨h1.trans g1, h2.trans g2, h3.trans g3, h4.trans g4⟩

theorem mdnie_write_table_frame (h : Header) (x : Ext) (w : World) (table : mdnie_table) :
    (mdnie_write_table h x w table).1.mdnie = w.mdnie ∧
    (mdnie_write_table h x w table).1.cat = w.cat ∧
    (mdnie_write_table h x w table).1.updates = w.updates ∧
    (mdnie_write_table h x w table).1.oops = w.oops := by
  unfold mdnie_write_table
  split
  · simp
  · exact write_loop_frame x table _ (w, 0)

theorem mdnie_update_sequence_frame (h : Header) (x : Ext) (w : World) (table : mdnie_table) :
    (mdnie_update_sequence h x w table).mdnie = w.mdnie ∧
    (mdnie_update_sequence h x w table).cat = w.cat ∧
    (mdnie_update_sequence h x w table).updates = w.updates ∧
    (mdnie_update_sequence h x w table).oops = w.oops := by
  unfold mdnie_update_sequence
  split
  · split
    · split
      · exact mdnie_write_table_frame h x w _
      · exact mdnie_write_table_frame h x w _
    · exact mdnie_write_table_frame h x w _
  · exact mdnie_write_table_frame h x w _

theorem mdnie_update_sequence_cat (h : Header) (x : Ext) (w : World) (table : mdnie_table) :
    (mdnie_update_sequence h x w table).cat = w.cat :=
  (mdnie_update_sequence_frame h x w table).2.1

theorem mdnie_update_sequence_mdnie (h : Header) (x : Ext) (w : World) (table : mdnie_table) :
    (mdnie_update_sequence h x w table).mdnie = w.mdnie :=
  (mdnie_update_sequence_frame h x w table).1

/-- What `mdnie_update` leaves alone: the catalog and every device field but the
current white point; it counts one more update. -/
theorem mdnie_update_frame (h : Header) (x : Ext) (w : World) :
    (mdnie_update h x w).cat = w.cat ∧
    (mdnie_update h x w).updates = w.updates + 1 ∧
    (mdnie_update h x w).mdnie.enable = w.mdnie.enable ∧
    (mdnie_update h x w).mdnie.scenario = w.mdnie.scenario ∧
    (mdnie_update h x w).mdnie.mode = w.mdnie.mode ∧
    (mdnie_update h x w).mdnie.bypass = w.mdnie.bypass ∧
    (mdnie_update h x w).mdnie.hbm = w.mdnie.hbm ∧
    (mdnie_update h x w).mdnie.tuning = w.mdnie.tuning ∧
    (mdnie_update h x w).mdnie.accessibility = w.mdnie.accessibility ∧
    (mdnie_update h x w).mdnie.color_correction = w.mdnie.color_correction ∧
    (mdnie_update h x w).mdnie.path = w.mdnie.path := by
  unfold mdnie_update
  simp only
  split
  · simp
  · split
    · simp
    · split
      · obtain ⟨h1, h2, h3, _⟩ := mdnie_update_sequence_frame h x
          { w with updates := w.updates + 1 }
          (Catalog.deref w.cat (by assumption))
        split <;> simp [h1, h2, h3]
      · simp

theorem mode_store_quiet (h : Header) (x : Ext) (w : World) (ret : Int) (value count : Nat)
    (hoff : w.mdnie.enable = 0) :
    (mode_store h x w ret value count).1.mdnie.enable = 0 ∧
    (mode_store h x w ret value count).1.wlog = w.wlog := by
  unfold mode_store
  split
  · exact ⟨hoff, rfl⟩
  · split
    · exact ⟨hoff, rfl⟩
    · simp only
      split
      · split
        · rw [mdnie_update_disabled]
          · simp [update_color_position, get_panel_coordinate, hoff]
          · simp [update_color_position, get_panel_coordinate, hoff]
        · rw [mdnie_update_disabled]
          · simp [get_panel_coordinate, hoff]
          · simp [get_panel_coordinate, hoff]
      · rw [mdnie_update_disabled]
        · simp [hoff]
        · simp [hoff]

theorem scenario_store_quiet (h : Header) (x : Ext) (w : World) (ret : Int) (value count : Nat)
    (hoff : w.mdnie.enable = 0) :
    (scenario_store h x w ret value count).1.mdnie.enable = 0 ∧
    (scenario_store h x w ret value count).1.wlog = w.wlog := by
  unfold scenario_store
  split
  · exact ⟨hoff, rfl⟩
  · simp only
    rw [mdnie_update_disabled]
    · simp [hoff]
    · simp [hoff]

theorem tuning_store_quiet (h : Header) (x : Ext) (w : World) (buf : List Char) (count : Nat)
    (hoff : w.mdnie.enable = 0) :
    (tuning_store h x w buf count).1.mdnie.enable = 0 ∧
    (tuning_store h x w buf count).1.wlog = w.wlog := by
  unfold tuning_store
  split
  · simp only
    split <;> simp [hoff]
  · split
    · exact ⟨hoff, rfl⟩
    · split
      · exact ⟨hoff, rfl⟩
      · simp only
        rw [mdnie_update_disabled]
        · simp [hoff]
        · simp [hoff]

theorem accessibility_store_quiet (h : Header) (x : Ext) (w : World) (ret : Int) (value : Nat)
    (sv : List Nat) (count : Nat) (hoff : w.mdnie.enable = 0) :
    (accessibility_store h x w ret value sv count).1.mdnie.enable = 0 ∧
    (accessibility_store h x w ret value sv count).1.wlog = w.wlog := by
  unfold accessibility_store
  split
  · exact ⟨hoff, rfl⟩
  · split
    · exact ⟨hoff, rfl⟩
    · simp only
      split
      · split
        · simp [hoff]
        · split
          · rw [mdnie_update_disabled]
            · simp [hoff]
            · simp [hoff]
          · split
            · simp [hoff]
            · split
              · simp [hoff]
              · rw [mdnie_update_disabled]
                · simp [hoff]
                · simp [hoff]
      · rw [mdnie_update_disabled]
        · simp [hoff]
        · simp [hoff]

theorem bypass_store_quiet (h : Header) (x : Ext) (w : World) (ret : Int) (value count : Nat)
    (hoff : w.mdnie.enable = 0) :
    (bypass_store h x w ret value count).1.mdnie.enable = 0 ∧
    (bypass_store h x w ret value count).1.wlog = w.wlog := by
  unfold bypass_store
  split
  · exact ⟨hoff, rfl⟩
  · split
    · exact ⟨hoff, rfl⟩
    · simp only
      rw [mdnie_write_table_disabled]
      · simp [hoff]
      · simp [hoff]

theorem lux_store_quiet (h : Header) (x : Ext) (w : World) (ret : Int) (value : Int)
    (count : Nat) (hoff : w.mdnie.enable = 0) :
    (lux_store h x w ret value count).1.mdnie.enable = 0 ∧
    (lux_store h x w ret value count).1.wlog = w.wlog := by
  unfold lux_store
  split
  · exact ⟨hoff, rfl⟩
  · simp only
    split
    · rw [mdnie_update_disabled]
      · simp [hoff]
      · simp [hoff]
    · simp [hoff]

theorem sensorRGB_store_quiet (h : Header) (x : Ext) (w : World) (ret : Int)
    (white_r white_g white_b count : Nat) (hoff : w.mdnie.enable = 0) :
    (sensorRGB_store h x w ret white_r white_g white_b count).1.mdnie.enable = 0 ∧
    (sensorRGB_store h x w ret white_r white_g white_b count).1.wlog = w.wlog := by
  unfold sensorRGB_store
  split
  · exact ⟨hoff, rfl⟩
  · split
    · rename_i hguard
      exact absurd hoff hguard.1
    · exact ⟨hoff, rfl⟩

theorem setter_quiet (h : Header) (x : Ext) (w : World) (c : Setter)
    (hoff : w.mdnie.enable = 0) :
    (c.run h x w).mdnie.enable = 0 ∧ (c.run h x w).wlog = w.wlog := by
  cases c with
  | mode ret value count => exact mode_store_quiet h x w ret value count hoff
  | scenario ret value count => exact scenario_store_quiet h x w ret value count hoff
  | tuning buf count => exact tuning_store_quiet h x w buf count hoff
  | accessibility ret value sv count =>
    exact accessibility_store_quiet h x w ret value sv count hoff
  | bypass ret value count => exact bypass_store_quiet h x w ret value count hoff
  | lux ret value count => exact lux_store_quiet h x w ret value count hoff
  | sensorRGB ret r g b count => exact sensorRGB_store_quiet h x w ret r g b count hoff

theorem run_setters_quiet (h : Header) (x : Ext) (calls : List Setter) (w : World)
    (hoff : w.mdnie.enable = 0) :
    (run_setters h x w calls).mdnie.enable = 0 ∧ (run_setters h x w calls).wlog = w.wlog := by
  induction calls generalizing w with
  | nil => exact ⟨hoff, rfl⟩
  | cons c calls ih =>
    obtain ⟨h1, h2⟩ := setter_quiet h x w c hoff
    obtain ⟨h3, h4⟩ := ih (c.run h x w) h1
    exact ⟨h3, h4.trans h2⟩

/-- C1. After `fb_notifier_callback` has handled `FB_BLANK_POWERDOWN`, no
sequence of setter calls (`mode_store`, `scenario_store`, `tuning_store`,
`accessibility_store`, `bypass_store`, `lux_store`, `sensorRGB_store`) calls
`ops.write`: the log of writes after the calls is the log before the event, and
the device is still disabled. Holds from every world, reachable or not; a prefix
of a sequence of setter calls is one too, so the log is unchanged at every step. -/
theorem no_write_while_powered_down (h : Header) (x : Ext) (w : World) (calls : List Setter) :
    (fb_notifier_callback h x w FB_EVENT_BLANK FB_BLANK_POWERDOWN).1.wlog = w.wlog ∧
    (run_setters h x (fb_notifier_callback h x w FB_EVENT_BLANK FB_BLANK_POWERDOWN).1
      calls).wlog = w.wlog ∧
    (run_setters h x (fb_notifier_callback h x w FB_EVENT_BLANK FB_BLANK_POWERDOWN).1
      calls).mdnie.enable = 0 := by
  have hdown : (fb_notifier_callback h x w FB_EVENT_BLANK FB_BLANK_POWERDOWN).1 =
      { w with mdnie := { w.mdnie with enable := 0 } } := by
    simp [fb_notifier_callback, FB_BLANK_POWERDOWN, FB_BLANK_UNBLANK]
  obtain ⟨h1, h2⟩ := run_setters_quiet h x calls
    { w with mdnie := { w.mdnie with enable := 0 } } rfl
  rw [hdown]
  exact ⟨rfl, h2, h1⟩

/-! ## Validation in the setters -/

/-- C5. For a parsed `value >= MODE_MAX`, `mode_store` returns `-EINVAL` and the
world is the one before the call: every device field, the catalog and the log of
writes are unchanged. -/
theorem mode_store_rejects_out_of_range (h : Header) (x : Ext) (w : World) (ret : Int)
    (value count : Nat) (hret : 0 ≤ ret) (hv : h.MODE_MAX ≤ value) :
    mode_store h x w ret value count = (w, -EINVAL) := by
  unfold mode_store
  rw [if_neg (not_lt.mpr hret), if_pos hv]

/-- Witness of C5: `value = MODE_MAX` on the demo header. -/
theorem mode_store_rejects_out_of_range_witness :
    mode_store demo_header demo_ext demo_world 0 5 2 = (demo_world, -EINVAL) :=
  mode_store_rejects_out_of_range demo_header demo_ext demo_world 0 5 2 (by decide) (by decide)

/-- C7. Whatever the device state and the triple `(white_r, white_g, white_b)`,
`sensorRGB_store` leaves the catalog as it was; in particular CMD1 of
`tuning_table[scenario][mode]` for the current pair is unchanged. Of the device
fields only `table_buffer`, `sequence_buffer` and `wrgb_current` can differ:
every other field is unchanged. The tuning file loader is a function of its
arguments and does not touch the catalog. -/
theorem sensorRGB_store_keeps_catalog (h : Header) (x : Ext) (w : World) (ret : Int)
    (white_r white_g white_b count : Nat) :
    (sensorRGB_store h x w ret white_r white_g white_b count).1.cat = w.cat ∧
    ((sensorRGB_store h x w ret white_r white_g white_b count).1.cat.tuning_table
        w.mdnie.scenario w.mdnie.mode).tune h.MDNIE_CMD1 =
      (w.cat.tuning_table w.mdnie.scenario w.mdnie.mode).tune h.MDNIE_CMD1 ∧
    (sensorRGB_store h x w ret white_r white_g white_b count).1.mdnie.enable =
      w.mdnie.enable ∧
    (sensorRGB_store h x w ret white_r white_g white_b count).1.mdnie.scenario =
      w.mdnie.scenario ∧
    (sensorRGB_store h x w ret white_r white_g white_b count).1.mdnie.mode = w.mdnie.mode ∧
    (sensorRGB_store h x w ret white_r white_g white_b count).1.mdnie.bypass =
      w.mdnie.bypass ∧
    (sensorRGB_store h x w ret white_r white_g white_b count).1.mdnie.hbm = w.mdnie.hbm ∧
    (sensorRGB_store h x w ret white_r white_g white_b count).1.mdnie.tuning =
      w.mdnie.tuning ∧
    (sensorRGB_store h x w ret white_r white_g white_b count).1.mdnie.accessibility =
      w.mdnie.accessibility ∧
    (sensorRGB_store h x w ret white_r white_g white_b count).1.mdnie.color_correction =
      w.mdnie.color_correction ∧
    (sensorRGB_store h x w ret white_r white_g white_b count).1.mdnie.path = w.mdnie.path := by
  have hc := mdnie_update_sequence_cat h x
  have hm := mdnie_update_sequence_mdnie h x
  unfold sensorRGB_store
  by_cases hret : ret < 0
  · rw [if_pos hret]
    simp
  · rw [if_neg hret]
    by_cases hg : w.mdnie.enable ≠ 0 ∧ w.mdnie.accessibility = ACCESSIBILITY_OFF ∧
        w.mdnie.mode = h.AUTO ∧
        (w.mdnie.scenario = h.BROWSER_MODE ∨ w.mdnie.scenario = h.EBOOK_MODE)
    · rw [if_pos hg]
      cases hfind : mdnie_find_table h w.mdnie with
      | none => simp
      | some r =>
        cases hseq : ((w.cat.deref r).tune h.MDNIE_CMD1).sequence with
        | none => simp [hseq]
        | some seq => simp [hseq, hc, hm]
    · rw [if_neg hg]
      simp

/-! ## Calibration patch -/

theorem patch_white_twice (h : Header) (idx : Nat) (wbuf : List Nat) :
    patch_white h idx (patch_white h idx wbuf) = patch_white h idx wbuf := by
  apply List.ext_getElem?
  intro n
  simp only [patch_white, List.getElem?_set, List.length_set]
  split_ifs <;> simp_all

theorem with_cmd1_sequence (h : Header) (t : mdnie_table) (wbuf : List Nat) :
    ((t.with_cmd1 h wbuf).tune h.MDNIE_CMD1).sequence = some wbuf := by
  simp [mdnie_table.with_cmd1]

theorem with_cmd1_twice (h : Header) (t : mdnie_table) (a b : List Nat) :
    (t.with_cmd1 h a).with_cmd1 h b = t.with_cmd1 h b := by
  ext i
  · rfl
  · simp only [mdnie_table.with_cmd1]
    split <;> simp_all

theorem patch_table_twice (h : Header) (idx : Nat) (t : mdnie_table) :
    patch_table h idx (patch_table h idx t) = patch_table h idx t := by
  cases hseq : (t.tune h.MDNIE_CMD1).sequence with
  | none =>
    have h1 : patch_table h idx t = t := by simp [patch_table, hseq]
    rw [h1, h1]
  | some wbuf =>
    by_cases hs : white_is_sentinel h wbuf = true
    · have h1 : patch_table h idx t = t.with_cmd1 h (patch_white h idx wbuf) := by
        simp [patch_table, hseq, hs]
      rw [h1]
      unfold patch_table
      rw [with_cmd1_sequence]
      simp only
      split
      · rw [with_cmd1_twice, patch_white_twice]
      · rfl
    · have h1 : patch_table h idx t = t := by simp [patch_table, hseq, hs]
      rw [h1, h1]

theorem patch_table_not_sentinel (h : Header) (idx : Nat) (t : mdnie_table)
    (hs : table_is_sentinel h t = false) : patch_table h idx t = t := by
  unfold table_is_sentinel at hs
  unfold patch_table
  split
  · rfl
  · rename_i wbuf hseq
    rw [hseq] at hs
    simp only at hs
    simp [hs]

theorem scenario_loop_closed (h : Header) (idx mode : Nat) (c : Catalog) (n : Nat) :
    List.foldl (color_position_step h idx mode) c (List.range n) =
      { c with tuning_table := fun s m =>
          if m = mode ∧ s < n then patch_table h idx (c.tuning_table s m)
          else c.tuning_table s m } := by
  induction n with
  | zero => simp
  | succ n ih =>
    rw [List.range_succ, List.foldl_append, ih]
    simp only [List.foldl_cons, List.foldl_nil, color_position_step]
    ext : 1
    · funext s m
      by_cases hm : m = mode
      · by_cases hs : s = n
        · subst hs; subst hm; simp
        · have h1 : s < n + 1 ↔ s < n := by omega
          simp [hm, hs, h1]
      · simp [hm]
    all_goals rfl

theorem mode_loop_closed (h : Header) (idx : Nat) (c : Catalog) (k n : Nat) :
    List.foldl
      (fun c mode => List.foldl (color_position_step h idx mode) c (List.range n))
      c (List.range k) = patched_catalog h idx c k n := by
  induction k with
  | zero => simp [patched_catalog]
  | succ k ih =>
    rw [List.range_succ, List.foldl_append, ih]
    simp only [List.foldl_cons, List.foldl_nil]
    rw [scenario_loop_closed]
    simp only [patched_catalog]
    ext : 1
    · funext s m
      by_cases hm : m = k
      · subst hm; simp
      · have h1 : m < k + 1 ↔ m < k := by omega
        simp [hm, h1]
    all_goals rfl

theorem update_color_position_closed (h : Header) (w : World) (idx : Nat) :
    update_color_position h w idx =
      { w with cat := patched_catalog h idx w.cat h.MODE_MAX (h.EMAIL_MODE + 1) } := by
  unfold update_color_position
  simp only
  rw [mode_loop_closed]

theorem patched_catalog_twice (h : Header) (idx : Nat) (c : Catalog) (k n : Nat) :
    patched_catalog h idx (patched_catalog h idx c k n) k n = patched_catalog h idx c k n := by
  simp only [patched_catalog]
  ext : 1
  · funext s m
    by_cases hc : m < k ∧ s < n
    · simp [hc, patch_table_twice]
    · simp [hc]
  all_goals rfl

/-- C8. For every catalog and calibration index `idx`,
`update_color_position(idx)` leaves unchanged every `tuning_table` entry whose
CMD1 white point is not the sentinel `(0xff, 0xff, 0xff)` (a NULL CMD1 included)
and every accessibility, HBM, bypass and DMB table, and running it twice gives
the same world as running it once. Stated for headers whose `MODE_MAX` and
`EMAIL_MODE` fit the `u8` loop counters. -/
theorem update_color_position_sentinel_only (h : Header) (w : World) (idx : Nat)
    (_hmode : h.MODE_MAX ≤ 255) (_hemail : h.EMAIL_MODE < 255) :
    (∀ s m, table_is_sentinel h (w.cat.tuning_table s m) = false →
      (update_color_position h w idx).cat.tuning_table s m = w.cat.tuning_table s m) ∧
    (update_color_position h w idx).cat.accessibility_table = w.cat.accessibility_table ∧
    (update_color_position h w idx).cat.hbm_table = w.cat.hbm_table ∧
    (update_color_position h w idx).cat.bypass_table = w.cat.bypass_table ∧
    (update_color_position h w idx).cat.dmb_table = w.cat.dmb_table ∧
    update_color_position h (update_color_position h w idx) idx =
      update_color_position h w idx := by
  refine ⟨?_, ?_, ?_, ?_, ?_, ?_⟩
  · intro s m hs
    rw [update_color_position_closed]
    simp only [patched_catalog]
    split
    · exact patch_table_not_sentinel h idx _ hs
    · rfl
  · rw [update_color_position_closed]; rfl
  · rw [update_color_position_closed]; rfl
  · rw [update_color_position_closed]; rfl
  · rw [update_color_position_closed]; rfl
  · rw [update_color_position_closed h w idx, update_color_position_closed]
    simp only [patched_catalog_twice]

/-- Witness of C8: the demo header fits the `u8` counters. -/
theorem update_color_position_sentinel_only_witness :
    (∀ s m, table_is_sentinel demo_header (demo_world.cat.tuning_table s m) = false →
      (update_color_position demo_header demo_world 1).cat.tuning_table s m =
        demo_world.cat.tuning_table s m) ∧
    update_color_position demo_header (update_color_position demo_header demo_world 1) 1 =
      update_color_position demo_header demo_world 1 :=
  have hall := update_color_position_sentinel_only demo_header demo_world 1
    (by decide) (by decide)
  ⟨hall.1, hall.2.2.2.2.2⟩

/-! ## HBM by lux -/

theorem lux_store_effect (h : Header) (x : Ext) (w : World) (value : Int) (count : Nat) :
    (lux_store h x w 0 value count).1.updates =
      w.updates + (if w.mdnie.hbm ≠ h.get_hbm_index value then 1 else 0) ∧
    (lux_store h x w 0 value count).1.mdnie.hbm = h.get_hbm_index value := by
  unfold lux_store
  rw [if_neg (by decide)]
  by_cases hd : w.mdnie.hbm = h.get_hbm_index value
  · simp [hd]
  · have hf := mdnie_update_frame h x
      { w with mdnie := { w.mdnie with hbm := h.get_hbm_index value } }
    simp [hd, hf.2.1, hf.2.2.2.2.2.2.1]

theorem lux_calls_same_level (h : Header) (x : Ext) (level : Nat) (calls : List (Int × Nat))
    (w : World) (hsame : ∀ c ∈ calls, h.get_hbm_index c.1 = level)
    (hcur : w.mdnie.hbm = level) :
    (run_setters h x w (lux_calls calls)).updates = w.updates := by
  induction calls generalizing w with
  | nil => rfl
  | cons c calls ih =>
    have hc : h.get_hbm_index c.1 = level := hsame c (List.mem_cons_self _ _)
    obtain ⟨h1, h2⟩ := lux_store_effect h x w c.1 c.2
    have hstep : (run_setters h x w (lux_calls (c :: calls))) =
        run_setters h x (lux_store h x w 0 c.1 c.2).1 (lux_calls calls) := rfl
    rw [hstep, ih _ (fun d hd => hsame d (List.mem_cons_of_mem _ hd)) (h2.trans hc), h1]
    simp [hc, hcur]

/-- C9 as stated fails: on an enabled device whose stored level already is the
level the lux values map to, two `lux_store` calls produce no dispatch at all
(no `mdnie_update`, no write), not exactly one. -/
theorem lux_store_dispatch_counterexample :
    demo_world.mdnie.enable ≠ 0 ∧
    (∀ c ∈ [((100 : Int), 4), ((200 : Int), 4)], demo_header.get_hbm_index c.1 = 0) ∧
    (run_setters demo_header demo_ext demo_world (lux_calls [(100, 4), (200, 4)])).updates = 0 ∧
    (run_setters demo_header demo_ext demo_world (lux_calls [(100, 4), (200, 4)])).wlog = [] := by
  decide

/-- C9, amended. A `lux_store` call enters `mdnie_update` exactly when the level
`get_hbm_index` resolves differs from the stored `hbm`. A sequence of calls whose
lux values all map to one level therefore produces at most one dispatch: exactly
one when the sequence is not empty and that level differs from the level stored
before the first call, and none otherwise. -/
theorem lux_store_dispatch_on_level_change (h : Header) (x : Ext) (w : World) (level : Nat)
    (calls : List (Int × Nat)) (hsame : ∀ c ∈ calls, h.get_hbm_index c.1 = level) :
    (∀ (w0 : World) (value : Int) (count : Nat),
      (lux_store h x w0 0 value count).1.updates =
        w0.updates + (if w0.mdnie.hbm ≠ h.get_hbm_index value then 1 else 0)) ∧
    (run_setters h x w (lux_calls calls)).updates =
      w.updates + (if calls ≠ [] ∧ w.mdnie.hbm ≠ level then 1 else 0) := by
  refine ⟨fun w0 value count => (lux_store_effect h x w0 value count).1, ?_⟩
  cases calls with
  | nil => simp [lux_calls, run_setters]
  | cons c calls =>
    have hc : h.get_hbm_index c.1 = level := hsame c (List.mem_cons_self _ _)
    obtain ⟨h1, h2⟩ := lux_store_effect h x w c.1 c.2
    have hstep : (run_setters h x w (lux_calls (c :: calls))) =
        run_setters h x (lux_store h x w 0 c.1 c.2).1 (lux_calls calls) := rfl
    rw [hstep, lux_calls_same_level h x level calls _
      (fun d hd => hsame d (List.mem_cons_of_mem _ hd)) (h2.trans hc), h1]
    simp [hc]

/-- Witness of the amended C9: three readings above the demo threshold from a
device at HBM OFF give one dispatch. -/
theorem lux_store_dispatch_on_level_change_witness :
    (run_setters demo_header demo_ext demo_world
      (lux_calls [(50000, 6), (60000, 6), (45000, 6)])).updates = demo_world.updates + 1 :=
  (lux_store_dispatch_on_level_change demo_header demo_ext demo_world 1
    [(50000, 6), (60000, 6), (45000, 6)] (by decide)).2

/-! ## Result of a table write -/

theorem write_loop_enabled (x : Ext) (table : mdnie_table) (w : World) (r : Int)
    (hen : w.mdnie.enable ≠ 0) (n : Nat) :
    (List.foldl (mdnie_write_step x table) (w, r) (List.range n)).1.wlog =
      w.wlog ++ (List.range n).map table.tune ∧
    (List.foldl (mdnie_write_step x table) (w, r) (List.range n)).2 =
      (if n = 0 then r
       else x.ops_write (w.wlog.length + (n - 1)) (table.tune (n - 1)).sequence
        (table.tune (n - 1)).size) := by
  induction n with
  | zero => simp
  | succ n ih =>
    obtain ⟨ih1, _⟩ := ih
    have hm := (write_loop_frame x table (List.range n) (w, r)).1
    have hen1 : (List.foldl (mdnie_write_step x table) (w, r) (List.range n)).1.mdnie.enable ≠ 0 := by
      rw [hm]; exact hen
    rw [List.range_succ, List.foldl_append]
    simp only [List.foldl_cons, List.foldl_nil, mdnie_write_step, if_pos hen1]
    simp [ih1, List.map_append]

/-- C10 as stated fails: on an enabled device, with all four sequences present
and a first write that fails with `-5`, `mdnie_write_table` still attempts the
four sequences in order but returns 0. -/
theorem write_table_result_counterexample :
    demo_world.mdnie.enable ≠ 0 ∧
    (∀ i < demo_header.MDNIE_CMD_MAX, (demo_table.tune i).sequence ≠ none) ∧
    first_write_fails.ops_write 0 (demo_table.tune 0).sequence (demo_table.tune 0).size < 0 ∧
    (mdnie_write_table demo_header first_write_fails demo_world demo_table).1.wlog =
      [demo_table.tune 0, demo_table.tune 1, demo_table.tune 2, demo_table.tune 3] ∧
    (mdnie_write_table demo_header first_write_fails demo_world demo_table).2 = 0 := by
  decide

/-- C10, amended. For a table with all command sequences present, on an enabled
device and whatever the outcomes of the individual writes, `mdnie_write_table`
hands every command sequence to `ops.write` in declared order, and its result is
the result of the last of these writes (0 when there is no slot): a failure of
the last sequence is reported, a failure of an earlier one is not. -/
theorem write_table_returns_last_result (h : Header) (x : Ext) (w : World)
    (table : mdnie_table) (hen : w.mdnie.enable ≠ 0)
    (hseq : ∀ i < h.MDNIE_CMD_MAX, (table.tune i).sequence ≠ none) :
    (mdnie_write_table h x w table).1.wlog =
      w.wlog ++ (List.range h.MDNIE_CMD_MAX).map table.tune ∧
    (mdnie_write_table h x w table).2 =
      (if h.MDNIE_CMD_MAX = 0 then 0
       else x.ops_write (w.wlog.length + (h.MDNIE_CMD_MAX - 1))
        (table.tune (h.MDNIE_CMD_MAX - 1)).sequence (table.tune (h.MDNIE_CMD_MAX - 1)).size) := by
  have hnone : (List.range h.MDNIE_CMD_MAX).any (fun i => (table.tune i).sequence.isNone) =
      false := by
    rw [List.any_eq_false]
    intro i hi
    have := hseq i (List.mem_range.mp hi)
    cases hs : (table.tune i).sequence with
    | none => exact absurd hs this
    | some q => simp
  unfold mdnie_write_table
  rw [hnone]
  exact write_loop_enabled x table w 0 hen h.MDNIE_CMD_MAX

/-- Witness of the amended C10: the demo table on the demo world, the first
write failing. -/
theorem write_table_returns_last_result_witness :
    (mdnie_write_table demo_header first_write_fails demo_world demo_table).1.wlog =
      demo_world.wlog ++ (List.range demo_header.MDNIE_CMD_MAX).map demo_table.tune ∧
    (mdnie_write_table demo_header first_write_fails demo_world demo_table).2 =
      (if demo_header.MDNIE_CMD_MAX = 0 then 0
       else first_write_fails.ops_write (demo_world.wlog.length + (demo_header.MDNIE_CMD_MAX - 1))
        (demo_table.tune (demo_header.MDNIE_CMD_MAX - 1)).sequence
        (demo_table.tune (demo_header.MDNIE_CMD_MAX - 1)).size) :=
  write_table_returns_last_result demo_header first_write_fails demo_world demo_table
    (by decide) (by decide)

/-! ## Who writes to the catalog -/

theorem mdnie_update_cat (h : Header) (x : Ext) (w : World) :
    (mdnie_update h x w).cat = w.cat :=
  (mdnie_update_frame h x w).1

theorem mdnie_write_table_cat (h : Header) (x : Ext) (w : World) (table : mdnie_table) :
    (mdnie_write_table h x w table).1.cat = w.cat :=
  (mdnie_write_table_frame h x w table).2.1

theorem scenario_store_cat (h : Header) (x : Ext) (w : World) (ret : Int) (value count : Nat) :
    (scenario_store h x w ret value count).1.cat = w.cat := by
  unfold scenario_store
  split
  · rfl
  · simp [mdnie_update_cat]

theorem bypass_store_cat (h : Header) (x : Ext) (w : World) (ret : Int) (value count : Nat) :
    (bypass_store h x w ret value count).1.cat = w.cat := by
  unfold bypass_store
  split
  · rfl
  · split
    · rfl
    · simp [mdnie_write_table_cat]

theorem lux_store_cat (h : Header) (x : Ext) (w : World) (ret : Int) (value : Int)
    (count : Nat) : (lux_store h x w ret value count).1.cat = w.cat := by
  unfold lux_store
  split
  · rfl
  · simp only
    split <;> simp [mdnie_update_cat]

theorem sensorRGB_store_frame (h : Header) (x : Ext) (w : World) (ret : Int)
    (white_r white_g white_b count : Nat) :
    (sensorRGB_store h x w ret white_r white_g white_b count).1.cat = w.cat ∧
    (sensorRGB_store h x w ret white_r white_g white_b count).1.mdnie.mode = w.mdnie.mode ∧
    (sensorRGB_store h x w ret white_r white_g white_b count).1.mdnie.accessibility =
      w.mdnie.accessibility ∧
    (sensorRGB_store h x w ret white_r white_g white_b count).1.mdnie.bypass =
      w.mdnie.bypass ∧
    (sensorRGB_store h x w ret white_r white_g white_b count).1.mdnie.scenario =
      w.mdnie.scenario := by
  have hc := mdnie_update_sequence_cat h x
  have hm := mdnie_update_sequence_mdnie h x
  unfold sensorRGB_store
  by_cases hret : ret < 0
  · rw [if_pos hret]
    simp
  · rw [if_neg hret]
    by_cases hg : w.mdnie.enable ≠ 0 ∧ w.mdnie.accessibility = ACCESSIBILITY_OFF ∧
        w.mdnie.mode = h.AUTO ∧
        (w.mdnie.scenario = h.BROWSER_MODE ∨ w.mdnie.scenario = h.EBOOK_MODE)
    · rw [if_pos hg]
      cases hfind : mdnie_find_table h w.mdnie with
      | none => simp
      | some r =>
        cases hseq : ((w.cat.deref r).tune h.MDNIE_CMD1).sequence with
        | none => simp [hseq]
        | some seq => simp [hseq, hc, hm]
    · rw [if_neg hg]
      simp

theorem fb_notifier_callback_cat (h : Header) (x : Ext) (w : World) (event : Nat)
    (fb_blank : Int) : (fb_notifier_callback h x w event fb_blank).1.cat = w.cat := by
  unfold fb_notifier_callback
  split
  · rfl
  · split
    · simp [mdnie_update_cat]
    · split <;> rfl

/-- The catalog after `accessibility_store`: the one before, or the one before
with the CMD1 bytes of the colour blind table replaced. -/
theorem accessibility_store_cat (h : Header) (x : Ext) (w : World) (ret : Int) (value : Nat)
    (sv : List Nat) (count : Nat) :
    (accessibility_store h x w ret value sv count).1.cat = w.cat ∨
    ∃ seq, ((w.cat.accessibility_table h.COLOR_BLIND).tune h.MDNIE_CMD1).sequence = some seq ∧
      value = h.COLOR_BLIND ∧ ((ret - 1) % 2 ^ 32).toNat ≠ 0 ∧
      (accessibility_store h x w ret value sv count).1.cat =
        w.cat.with_color_blind h
          ((w.cat.accessibility_table h.COLOR_BLIND).with_cmd1 h
            (color_blind_fill h sv ((ret - 1) % 2 ^ 32).toNat seq)) := by
  unfold accessibility_store
  split
  · exact Or.inl rfl
  · split
    · exact Or.inl rfl
    · simp only
      split
      · rename_i hval
        split
        · exact Or.inl rfl
        · split
          · exact Or.inl (by simp [mdnie_update_cat])
          · rename_i hn
            split
            · exact Or.inl rfl
            · split
              · exact Or.inl rfl
              · rename_i seq hseq
                exact Or.inr ⟨seq, hseq, hval, hn, by simp [mdnie_update_cat, Catalog.with_color_blind]⟩
      · exact Or.inl (by simp [mdnie_update_cat])

/-- C11 as stated fails: `accessibility_store` with the kind `COLOR_BLIND` and
two payload words returns `count` and has rewritten four bytes of CMD1 of
`accessibility_table[COLOR_BLIND]`. -/
theorem catalog_frame_counterexample :
    (accessibility_store demo_header demo_ext wide_world 3 2
      [0x1234, 0xabcd, 0, 0, 0, 0, 0, 0, 0] 20).2 = 20 ∧
    (accessibility_store demo_header demo_ext wide_world 3 2
      [0x1234, 0xabcd, 0, 0, 0, 0, 0, 0, 0] 20).1.oops = false ∧
    ((wide_world.cat.accessibility_table 2).tune 1).sequence =
      some [0xec, 0, 0, 0, 0, 0, 0, 0, 0, 0, 0, 0, 0, 0, 0, 0, 0, 0, 0, 0, 0, 0, 0, 0, 0, 0] ∧
    (((accessibility_store demo_header demo_ext wide_world 3 2
      [0x1234, 0xabcd, 0, 0, 0, 0, 0, 0, 0] 20).1.cat.accessibility_table 2).tune 1).sequence =
      some [0xec, 0, 0, 0, 0, 0, 0, 0x34, 0x12, 0xcd, 0xab, 0, 0, 0, 0, 0, 0, 0, 0, 0, 0, 0,
        0, 0, 0, 0] := by
  decide

theorem color_blind_fill_succ (h : Header) (sv : List Nat) (n : Nat) (seq : List Nat) :
    color_blind_fill h sv (n + 1) seq =
      ((color_blind_fill h sv n seq).set (h.MDNIE_COLOR_BLIND_OFFSET + (n * 2 + 0))
        (GET_LSB_8BIT (sv.getD n 0))).set (h.MDNIE_COLOR_BLIND_OFFSET + (n * 2 + 1))
        (GET_MSB_8BIT (sv.getD n 0)) := by
  simp [color_blind_fill, List.range_succ, List.foldl_append]

theorem color_blind_fill_length (h : Header) (sv : List Nat) (n : Nat) (seq : List Nat) :
    (color_blind_fill h sv n seq).length = seq.length := by
  induction n with
  | zero => simp [color_blind_fill]
  | succ n ih => rw [color_blind_fill_succ]; simp [ih]

/-- The bytes after `n` rounds of the payload loop: byte `OFFSET + 2 i` is the
low byte and byte `OFFSET + 2 i + 1` the high byte of word `i`, for `i < n`;
every other byte is the one before. -/
theorem color_blind_fill_byte (h : Header) (sv : List Nat) (n : Nat) (seq : List Nat) (k : Nat) :
    (color_blind_fill h sv n seq)[k]? =
      if h.MDNIE_COLOR_BLIND_OFFSET ≤ k ∧ k < h.MDNIE_COLOR_BLIND_OFFSET + 2 * n ∧
          k < seq.length then
        some (if (k - h.MDNIE_COLOR_BLIND_OFFSET) % 2 = 0
          then GET_LSB_8BIT (sv.getD ((k - h.MDNIE_COLOR_BLIND_OFFSET) / 2) 0)
          else GET_MSB_8BIT (sv.getD ((k - h.MDNIE_COLOR_BLIND_OFFSET) / 2) 0))
      else seq[k]? := by
  induction n with
  | zero =>
    have hno : ¬ (h.MDNIE_COLOR_BLIND_OFFSET ≤ k ∧ k < h.MDNIE_COLOR_BLIND_OFFSET + 2 * 0 ∧
        k < seq.length) := by omega
    rw [if_neg hno]
    simp [color_blind_fill]
  | succ n ih =>
    rw [color_blind_fill_succ, List.getElem?_set, List.getElem?_set, List.length_set,
      color_blind_fill_length, ih]
    split_ifs <;> first
      | rfl
      | (exfalso; omega)
      | (have e2 : (k - h.MDNIE_COLOR_BLIND_OFFSET) / 2 = n := by omega
         rw [e2])
      | (symm; apply List.getElem?_eq_none; omega)

/-- The catalog after an accepted colour blind payload of `ret - 1` words. -/
theorem accessibility_store_payload (h : Header) (x : Ext) (w : World) (ret : Int)
    (value : Nat) (sv : List Nat) (count : Nat) (seq : List Nat)
    (hval : value = h.COLOR_BLIND) (hmax : value < h.ACCESSIBILITY_MAX)
    (h2 : 2 ≤ ret) (h10 : ret ≤ 10)
    (hseq : ((w.cat.accessibility_table h.COLOR_BLIND).tune h.MDNIE_CMD1).sequence = some seq) :
    (accessibility_store h x w ret value sv count).1.cat =
      w.cat.with_color_blind h
        ((w.cat.accessibility_table h.COLOR_BLIND).with_cmd1 h
          (color_blind_fill h sv (ret - 1).toNat seq)) ∧
    (accessibility_store h x w ret value sv count).2 = (count : Int) ∧
    (accessibility_store h x w ret value sv count).1.mdnie.accessibility = h.COLOR_BLIND := by
  have hn : ((ret - 1) % 2 ^ 32).toNat = (ret - 1).toNat := by
    rw [Int.emod_eq_of_lt (by omega) (by omega)]
  have hn0 : ¬ (ret - 1).toNat = 0 := by omega
  have hn9 : ¬ (ret - 1).toNat > 9 := by omega
  unfold accessibility_store
  rw [if_neg (by omega), if_neg (by omega : ¬ value ≥ h.ACCESSIBILITY_MAX)]
  simp only
  rw [if_pos hval, if_neg (by omega : ¬ ret > 9 + 1), hn, if_neg hn0, if_neg hn9]
  simp only [hseq]
  refine ⟨?_, ?_, ?_⟩
  · rw [mdnie_update_cat]
    rfl
  · trivial
  · rw [(mdnie_update_frame h x _).2.2.2.2.2.2.2.2.1]
    exact hval

/-- C11, amended. `scenario_store`, `bypass_store`, `lux_store`,
`sensorRGB_store`, the power events, and `accessibility_store` with a kind other
than `COLOR_BLIND` or with no payload word (`sscanf` returned 1) leave every
table of the catalog as it was. `accessibility_store` with the kind `COLOR_BLIND`
and `ret - 1 >= 1` payload words leaves every tuning, HBM, bypass and DMB table
and every other accessibility table as it was, and in
`accessibility_table[COLOR_BLIND]` changes nothing but the bytes of the CMD1
sequence. On an accepted payload (`COLOR_BLIND < ACCESSIBILITY_MAX`, `ret <= 10`,
CMD1 present) the call returns `count` and the CMD1 sequence keeps its length;
for each word `i < ret - 1` its byte `MDNIE_COLOR_BLIND_OFFSET + 2 i` is the low
byte and its byte `MDNIE_COLOR_BLIND_OFFSET + 2 i + 1` the high byte of `s[i]`,
and every other byte is unchanged. -/
theorem catalog_frame (h : Header) (x : Ext) (w : World) :
    (∀ ret value count, (scenario_store h x w ret value count).1.cat = w.cat) ∧
    (∀ ret value count, (bypass_store h x w ret value count).1.cat = w.cat) ∧
    (∀ ret value count, (lux_store h x w ret value count).1.cat = w.cat) ∧
    (∀ ret white_r white_g white_b count,
      (sensorRGB_store h x w ret white_r white_g white_b count).1.cat = w.cat) ∧
    (∀ event fb_blank, (fb_notifier_callback h x w event fb_blank).1.cat = w.cat) ∧
    (∀ ret value sv count, value ≠ h.COLOR_BLIND ∨ ret = 1 →
      (accessibility_store h x w ret value sv count).1.cat = w.cat) ∧
    (∀ ret value sv count, value = h.COLOR_BLIND → 2 ≤ ret →
      (accessibility_store h x w ret value sv count).1.cat.tuning_table = w.cat.tuning_table ∧
      (accessibility_store h x w ret value sv count).1.cat.hbm_table = w.cat.hbm_table ∧
      (accessibility_store h x w ret value sv count).1.cat.bypass_table = w.cat.bypass_table ∧
      (accessibility_store h x w ret value sv count).1.cat.dmb_table = w.cat.dmb_table ∧
      (∀ i, i ≠ h.COLOR_BLIND →
        (accessibility_store h x w ret value sv count).1.cat.accessibility_table i =
          w.cat.accessibility_table i) ∧
      ((accessibility_store h x w ret value sv count).1.cat.accessibility_table
          h.COLOR_BLIND).name = (w.cat.accessibility_table h.COLOR_BLIND).name ∧
      (∀ j, j ≠ h.MDNIE_CMD1 →
        ((accessibility_store h x w ret value sv count).1.cat.accessibility_table
            h.COLOR_BLIND).tune j = (w.cat.accessibility_table h.COLOR_BLIND).tune j) ∧
      (((accessibility_store h x w ret value sv count).1.cat.accessibility_table
          h.COLOR_BLIND).tune h.MDNIE_CMD1).size =
        ((w.cat.accessibility_table h.COLOR_BLIND).tune h.MDNIE_CMD1).size) ∧
    (∀ ret value sv count seq, value = h.COLOR_BLIND → value < h.ACCESSIBILITY_MAX →
      2 ≤ ret → ret ≤ 10 →
      ((w.cat.accessibility_table h.COLOR_BLIND).tune h.MDNIE_CMD1).sequence = some seq →
      (accessibility_store h x w ret value sv count).2 = (count : Int) ∧
      ∃ written,
        (((accessibility_store h x w ret value sv count).1.cat.accessibility_table
            h.COLOR_BLIND).tune h.MDNIE_CMD1).sequence = some written ∧
        written.length = seq.length ∧
        ∀ k, written[k]? =
          if h.MDNIE_COLOR_BLIND_OFFSET ≤ k ∧
              k < h.MDNIE_COLOR_BLIND_OFFSET + 2 * (ret - 1).toNat ∧ k < seq.length then
            some (if (k - h.MDNIE_COLOR_BLIND_OFFSET) % 2 = 0
              then GET_LSB_8BIT (sv.getD ((k - h.MDNIE_COLOR_BLIND_OFFSET) / 2) 0)
              else GET_MSB_8BIT (sv.getD ((k - h.MDNIE_COLOR_BLIND_OFFSET) / 2) 0))
          else seq[k]?) := by
  refine ⟨scenario_store_cat h x w, bypass_store_cat h x w, lux_store_cat h x w,
    fun ret r g b count => (sensorRGB_store_frame h x w ret r g b count).1,
    fb_notifier_callback_cat h x w, ?_, ?_, ?_⟩
  · intro ret value sv count hcase
    rcases accessibility_store_cat h x w ret value sv count with hsame | ⟨seq, _, hval, hn, _⟩
    · exact hsame
    · rcases hcase with hne | hone
      · exact absurd hval hne
      · subst hone
        exact absurd (by decide) hn
  · intro ret value sv count _ _
    rcases accessibility_store_cat h x w ret value sv count with hsame | ⟨seq, _, _, _, hcat⟩
    · rw [hsame]
      exact ⟨rfl, rfl, rfl, rfl, fun _ _ => rfl, rfl, fun _ _ => rfl, rfl⟩
    · rw [hcat]
      refine ⟨rfl, rfl, rfl, rfl, ?_, ?_, ?_, ?_⟩
      · intro i hi
        simp [Catalog.with_color_blind, hi]
      · simp [Catalog.with_color_blind, mdnie_table.with_cmd1]
      · intro j hj
        simp [Catalog.with_color_blind, mdnie_table.with_cmd1, hj]
      · simp [Catalog.with_color_blind, mdnie_table.with_cmd1]
  · intro ret value sv count seq hval hmax h2 h10 hseq
    obtain ⟨hcat, hret, _⟩ := accessibility_store_payload h x w ret value sv count seq
      hval hmax h2 h10 hseq
    refine ⟨hret, color_blind_fill h sv (ret - 1).toNat seq, ?_,
      color_blind_fill_length h sv _ seq, color_blind_fill_byte h sv _ seq⟩
    rw [hcat]
    simp [Catalog.with_color_blind, mdnie_table.with_cmd1]

/-- Witness of the amended C11 on the colour blind payload of the wide world:
the table of another kind and the unlock slot of the colour blind table are
unchanged, a kind without payload changes nothing, and of the CMD1 bytes of the
colour blind table byte 8 is the high byte of the first word and byte 0 is the
one before. -/
theorem catalog_frame_witness :
    (accessibility_store demo_header demo_ext wide_world 3 2
      [0x1234, 0xabcd, 0, 0, 0, 0, 0, 0, 0] 20).1.cat.accessibility_table 1 =
        wide_world.cat.accessibility_table 1 ∧
    ((accessibility_store demo_header demo_ext wide_world 3 2
      [0x1234, 0xabcd, 0, 0, 0, 0, 0, 0, 0] 20).1.cat.accessibility_table
        demo_header.COLOR_BLIND).tune 0 =
      (wide_world.cat.accessibility_table demo_header.COLOR_BLIND).tune 0 ∧
    (accessibility_store demo_header demo_ext wide_world 1 4 [] 20).1.cat = wide_world.cat ∧
    ∃ written,
      (((accessibility_store demo_header demo_ext wide_world 3 2
        [0x1234, 0xabcd, 0, 0, 0, 0, 0, 0, 0] 20).1.cat.accessibility_table
          demo_header.COLOR_BLIND).tune demo_header.MDNIE_CMD1).sequence = some written ∧
      written[8]? = some 0x12 ∧ written[0]? = some 0xec :=
  have hall := catalog_frame demo_header demo_ext wide_world
  have hpay := hall.2.2.2.2.2.2.1 3 2 [0x1234, 0xabcd, 0, 0, 0, 0, 0, 0, 0] 20 rfl (by decide)
  have hbytes := (hall.2.2.2.2.2.2.2 3 2 [0x1234, 0xabcd, 0, 0, 0, 0, 0, 0, 0] 20
    (0xec :: List.replicate 25 0) rfl (by decide) (by decide) (by decide) rfl).2
  ⟨hpay.2.2.2.2.1 1 (by decide), hpay.2.2.2.2.2.2.1 0 (by decide),
    hall.2.2.2.2.2.1 1 4 [] 20 (Or.inl (by decide)),
    hbytes.elim fun written hw =>
      ⟨written, hw.1, (hw.2.2 8).trans (by decide), (hw.2.2 0).trans (by decide)⟩⟩

/-! ## Results of the getters -/

theorem mdnie_update_domain (h : Header) (x : Ext) (w : World)
    (hinv : domain_invariant h w.mdnie) : domain_invariant h (mdnie_update h x w).mdnie := by
  obtain ⟨_, _, _, hs, hm, hb, _, _, ha, _, _⟩ := mdnie_update_frame h x w
  unfold domain_invariant
  rw [hs, hm, hb, ha]
  exact hinv

theorem mode_store_domain (h : Header) (x : Ext) (w : World) (ret : Int) (value count : Nat)
    (hinv : domain_invariant h w.mdnie) :
    domain_invariant h (mode_store h x w ret value count).1.mdnie := by
  unfold mode_store
  split
  · exact hinv
  · split
    · exact hinv
    · rename_i hv
      apply mdnie_update_domain
      obtain ⟨_, ha, hb, hs⟩ := hinv
      simp only
      split
      · split
        · exact ⟨by simpa using hv, ha, hb, hs⟩
        · exact ⟨by simpa using hv, ha, hb, hs⟩
      · exact ⟨by simpa using hv, ha, hb, hs⟩

theorem scenario_store_domain (h : Header) (x : Ext) (w : World) (ret : Int)
    (value count : Nat) (hui : SCENARIO_IS_VALID h h.UI_MODE = true)
    (hinv : domain_invariant h w.mdnie) :
    domain_invariant h (scenario_store h x w ret value count).1.mdnie := by
  unfold scenario_store
  split
  · exact hinv
  · apply mdnie_update_domain
    obtain ⟨hm, ha, hb, _⟩ := hinv
    refine ⟨hm, ha, hb, ?_⟩
    cases hv : SCENARIO_IS_VALID h value
    · simpa [hv] using hui
    · simp [hv]

theorem tuning_store_domain (h : Header) (x : Ext) (w : World) (buf : List Char) (count : Nat)
    (hinv : domain_invariant h w.mdnie) :
    domain_invariant h (tuning_store h x w buf count).1.mdnie := by
  unfold tuning_store
  split
  · simp only
    split
    · exact hinv
    · exact hinv
  · split
    · exact hinv
    · split
      · exact hinv
      · exact mdnie_update_domain h x _ hinv

theorem accessibility_store_domain (h : Header) (x : Ext) (w : World) (ret : Int)
    (value : Nat) (sv : List Nat) (count : Nat) (hinv : domain_invariant h w.mdnie) :
    domain_invariant h (accessibility_store h x w ret value sv count).1.mdnie := by
  obtain ⟨hm, ha, hb, hs⟩ := hinv
  unfold accessibility_store
  split
  · exact ⟨hm, ha, hb, hs⟩
  · split
    · exact ⟨hm, ha, hb, hs⟩
    · rename_i hv
      have hnew : domain_invariant h ({ w.mdnie with accessibility := value } : mdnie_info) :=
        ⟨hm, by simpa using hv, hb, hs⟩
      simp only
      split
      · split
        · exact hnew
        · split
          · exact mdnie_update_domain h x _ hnew
          · split
            · exact hnew
            · split
              · exact hnew
              · exact mdnie_update_domain h x _ hnew
      · exact mdnie_update_domain h x _ hnew

theorem bypass_store_domain (h : Header) (x : Ext) (w : World) (ret : Int) (value count : Nat)
    (hoff : h.BYPASS_OFF < h.BYPASS_MAX) (hon : h.BYPASS_ON < h.BYPASS_MAX)
    (hinv : domain_invariant h w.mdnie) :
    domain_invariant h (bypass_store h x w ret value count).1.mdnie := by
  obtain ⟨hm, ha, hb, hs⟩ := hinv
  unfold bypass_store
  split
  · exact ⟨hm, ha, hb, hs⟩
  · split
    · exact ⟨hm, ha, hb, hs⟩
    · simp only
      rw [(mdnie_write_table_frame h x _ _).1]
      refine ⟨hm, ha, ?_, hs⟩
      simp only
      split
      · exact hon
      · exact hoff

theorem lux_store_domain (h : Header) (x : Ext) (w : World) (ret : Int) (value : Int)
    (count : Nat) (hinv : domain_invariant h w.mdnie) :
    domain_invariant h (lux_store h x w ret value count).1.mdnie := by
  unfold lux_store
  split
  · exact hinv
  · simp only
    split
    · exact mdnie_update_domain h x _ hinv
    · exact hinv

theorem sensorRGB_store_domain (h : Header) (x : Ext) (w : World) (ret : Int)
    (white_r white_g white_b count : Nat) (hinv : domain_invariant h w.mdnie) :
    domain_invariant h (sensorRGB_store h x w ret white_r white_g white_b count).1.mdnie := by
  obtain ⟨_, hm, ha, hb, hs⟩ := sensorRGB_store_frame h x w ret white_r white_g white_b count
  unfold domain_invariant
  rw [hm, ha, hb, hs]
  exact hinv

theorem fb_notifier_callback_domain (h : Header) (x : Ext) (w : World) (event : Nat)
    (fb_blank : Int) (hinv : domain_invariant h w.mdnie) :
    domain_invariant h (fb_notifier_callback h x w event fb_blank).1.mdnie := by
  unfold fb_notifier_callback
  split
  · exact hinv
  · split
    · exact mdnie_update_domain h x _ hinv
    · split
      · exact hinv
      · exact hinv

theorem call_domain (h : Header) (x : Ext) (w : World) (c : Call)
    (hui : SCENARIO_IS_VALID h h.UI_MODE = true)
    (hoff : h.BYPASS_OFF < h.BYPASS_MAX) (hon : h.BYPASS_ON < h.BYPASS_MAX)
    (hinv : domain_invariant h w.mdnie) : domain_invariant h (c.run h x w).mdnie := by
  cases c with
  | power event fb_blank => exact fb_notifier_callback_domain h x w event fb_blank hinv
  | setter c =>
    cases c with
    | mode ret value count => exact mode_store_domain h x w ret value count hinv
    | scenario ret value count => exact scenario_store_domain h x w ret value count hui hinv
    | tuning buf count => exact tuning_store_domain h x w buf count hinv
    | accessibility ret value sv count =>
      exact accessibility_store_domain h x w ret value sv count hinv
    | bypass ret value count => exact bypass_store_domain h x w ret value count hoff hon hinv
    | lux ret value count => exact lux_store_domain h x w ret value count hinv
    | sensorRGB ret r g b count => exact sensorRGB_store_domain h x w ret r g b count hinv

theorem run_calls_domain (h : Header) (x : Ext) (calls : List Call) (w : World)
    (hui : SCENARIO_IS_VALID h h.UI_MODE = true)
    (hoff : h.BYPASS_OFF < h.BYPASS_MAX) (hon : h.BYPASS_ON < h.BYPASS_MAX)
    (hinv : domain_invariant h w.mdnie) :
    domain_invariant h (run_calls h x w calls).mdnie := by
  induction calls generalizing w with
  | nil => exact hinv
  | cons c calls ih => exact ih (c.run h x w) (call_domain h x w c hui hoff hon hinv)

theorem mdnie_register_domain (h : Header) (x : Ext) (cat : Catalog) (bufsize : Nat)
    (class_ok alloc_ok device_ok : Bool) (w0 : World)
    (hstd : h.STANDARD < h.MODE_MAX) (hui : SCENARIO_IS_VALID h h.UI_MODE = true)
    (hacc : ACCESSIBILITY_OFF < h.ACCESSIBILITY_MAX) (hoff : h.BYPASS_OFF < h.BYPASS_MAX)
    (hreg : (mdnie_register h x cat bufsize class_ok alloc_ok device_ok).1 = some w0) :
    domain_invariant h w0.mdnie := by
  unfold mdnie_register at hreg
  split at hreg
  · exact absurd hreg (by simp)
  · split at hreg
    · exact absurd hreg (by simp)
    · split at hreg
      · exact absurd hreg (by simp)
      · simp only [Option.some.injEq] at hreg
        rw [← hreg]
        exact mdnie_update_domain h x _ ⟨hstd, hacc, hoff, hui⟩

theorem find_table_in_domain (h : Header) (m : mdnie_info) (hmode : m.mode < h.MODE_MAX)
    (r : TableRef) (hfind : mdnie_find_table h m = some r) : r.in_domain h := by
  unfold mdnie_find_table at hfind
  split at hfind
  · rename_i hg
    simp only [Option.some.injEq] at hfind
    subst hfind
    simp only [IS_ACCESSIBILITY, Bool.and_eq_true, decide_eq_true_eq] at hg
    exact hg.2
  · split at hfind
    · rename_i hg
      simp only [Option.some.injEq] at hfind
      subst hfind
      simp only [IS_HBM, Bool.and_eq_true, decide_eq_true_eq] at hg
      exact hg.2
    · split at hfind
      · simp only [Option.some.injEq] at hfind
        subst hfind
        exact hmode
      · split at hfind
        · rename_i hg
          simp only [Option.some.injEq] at hfind
          subst hfind
          simp only [ IS_SCENARIO, Bool.and_eq_true, decide_eq_true_eq] at hg
          exact ⟨hg.1, hmode⟩
        · exact absurd hfind (by simp)

/-- C13. In every state reached from the state `mdnie_register` leaves by a
sequence of setter calls and framebuffer events, `mode < MODE_MAX`,
`accessibility < ACCESSIBILITY_MAX`, `bypass < BYPASS_MAX` and `scenario` is a
valid ordinary scenario or the DMB marker; and whatever table
`mdnie_find_table` then selects, its indices into `accessibility_table`,
`hbm_table`, `tuning_table` (and `dmb_table`) lie inside their enums. The header
is assumed to order its enums as the code uses them: `STANDARD < MODE_MAX`,
`UI_MODE` a valid scenario, `ACCESSIBILITY_OFF < ACCESSIBILITY_MAX`,
`BYPASS_OFF` and `BYPASS_ON` below `BYPASS_MAX`. -/
theorem reachable_states_in_domain (h : Header) (x : Ext) (cat : Catalog) (bufsize : Nat)
    (class_ok alloc_ok device_ok : Bool) (w0 : World) (calls : List Call)
    (hstd : h.STANDARD < h.MODE_MAX) (hui : SCENARIO_IS_VALID h h.UI_MODE = true)
    (hacc : ACCESSIBILITY_OFF < h.ACCESSIBILITY_MAX)
    (hoff : h.BYPASS_OFF < h.BYPASS_MAX) (hon : h.BYPASS_ON < h.BYPASS_MAX)
    (hreg : (mdnie_register h x cat bufsize class_ok alloc_ok device_ok).1 = some w0) :
    domain_invariant h (run_calls h x w0 calls).mdnie ∧
    ∀ r, mdnie_find_table h (run_calls h x w0 calls).mdnie = some r → r.in_domain h := by
  have hinv := run_calls_domain h x calls w0 hui hoff hon
    (mdnie_register_domain h x cat bufsize class_ok alloc_ok device_ok w0 hstd hui hacc hoff hreg)
  exact ⟨hinv, fun r hr => find_table_in_domain h _ hinv.1 r hr⟩

/-- Witness of C13: from the registered demo world, the DMB marker, a
power-down, a rejected mode, an accepted accessibility kind and an unblank. -/
theorem reachable_states_in_domain_witness :
    domain_invariant demo_header
      (run_calls demo_header demo_ext demo_registered
        [Call.setter (Setter.scenario 0 20 3), Call.power 9 4, Call.setter (Setter.mode 0 7 2),
          Call.setter (Setter.accessibility 1 5 [] 2), Call.power 9 0]).mdnie :=
  (reachable_states_in_domain demo_header demo_ext demo_catalog 256 true true true
    demo_registered
    [Call.setter (Setter.scenario 0 20 3), Call.power 9 4, Call.setter (Setter.mode 0 7 2),
      Call.setter (Setter.accessibility 1 5 [] 2), Call.power 9 0]
    (by decide) (by decide) (by decide) (by decide) (by decide) rfl).1

/-! ## Selector priority in the states the driver reaches -/

theorem mdnie_update_levels (h : Header) (x : Ext) (w : World)
    (hinv : level_invariant h w.mdnie) : level_invariant h (mdnie_update h x w).mdnie := by
  obtain ⟨_, _, _, _, _, _, hh, _, ha, _, _⟩ := mdnie_update_frame h x w
  unfold level_invariant
  rw [hh, ha]
  exact hinv

theorem mode_store_levels (h : Header) (x : Ext) (w : World) (ret : Int) (value count : Nat)
    (hinv : level_invariant h w.mdnie) :
    level_invariant h (mode_store h x w ret value count).1.mdnie := by
  unfold mode_store
  split
  · exact hinv
  · split
    · exact hinv
    · apply mdnie_update_levels
      simp only
      split
      · split
        · exact hinv
        · exact hinv
      · exact hinv

theorem scenario_store_levels (h : Header) (x : Ext) (w : World) (ret : Int)
    (value count : Nat) (hinv : level_invariant h w.mdnie) :
    level_invariant h (scenario_store h x w ret value count).1.mdnie := by
  unfold scenario_store
  split
  · exact hinv
  · exact mdnie_update_levels h x _ hinv

theorem tuning_store_levels (h : Header) (x : Ext) (w : World) (buf : List Char) (count : Nat)
    (hinv : level_invariant h w.mdnie) :
    level_invariant h (tuning_store h x w buf count).1.mdnie := by
  unfold tuning_store
  split
  · simp only
    split
    · exact hinv
    · exact hinv
  · split
    · exact hinv
    · split
      · exact hinv
      · exact mdnie_update_levels h x _ hinv

theorem accessibility_store_levels (h : Header) (x : Ext) (w : World) (ret : Int)
    (value : Nat) (sv : List Nat) (count : Nat) (hinv : level_invariant h w.mdnie) :
    level_invariant h (accessibility_store h x w ret value sv count).1.mdnie := by
  unfold accessibility_store
  split
  · exact hinv
  · split
    · exact hinv
    · rename_i hv
      have hnew : level_invariant h ({ w.mdnie with accessibility := value } : mdnie_info) :=
        ⟨Or.inr (by simpa using hv), hinv.2⟩
      simp only
      split
      · split
        · exact hnew
        · split
          · exact mdnie_update_levels h x _ hnew
          · split
            · exact hnew
            · split
              · exact hnew
              · exact mdnie_update_levels h x _ hnew
      · exact mdnie_update_levels h x _ hnew

theorem bypass_store_levels (h : Header) (x : Ext) (w : World) (ret : Int) (value count : Nat)
    (hinv : level_invariant h w.mdnie) :
    level_invariant h (bypass_store h x w ret value count).1.mdnie := by
  unfold bypass_store
  split
  · exact hinv
  · split
    · exact hinv
    · simp only
      rw [(mdnie_write_table_frame h x _ _).1]
      exact hinv

theorem lux_store_levels (h : Header) (x : Ext) (w : World) (ret : Int) (value : Int)
    (count : Nat) (hinv : level_invariant h w.mdnie) :
    level_invariant h (lux_store h x w ret value count).1.mdnie := by
  unfold lux_store
  split
  · exact hinv
  · simp only
    split
    · apply mdnie_update_levels
      rename_i hup
      exact ⟨hinv.1, Or.inr ⟨value, by simp [hup]⟩⟩
    · rename_i hup
      exact ⟨hinv.1, by simpa [hup] using hinv.2⟩

theorem sensorRGB_store_levels (h : Header) (x : Ext) (w : World) (ret : Int)
    (white_r white_g white_b count : Nat) (hinv : level_invariant h w.mdnie) :
    level_invariant h (sensorRGB_store h x w ret white_r white_g white_b count).1.mdnie := by
  have hm := mdnie_update_sequence_mdnie h x
  have hfields :
      (sensorRGB_store h x w ret white_r white_g white_b count).1.mdnie.accessibility =
        w.mdnie.accessibility ∧
      (sensorRGB_store h x w ret white_r white_g white_b count).1.mdnie.hbm = w.mdnie.hbm := by
    unfold sensorRGB_store
    by_cases hret : ret < 0
    · rw [if_pos hret]
      simp
    · rw [if_neg hret]
      by_cases hg : w.mdnie.enable ≠ 0 ∧ w.mdnie.accessibility = ACCESSIBILITY_OFF ∧
          w.mdnie.mode = h.AUTO ∧
          (w.mdnie.scenario = h.BROWSER_MODE ∨ w.mdnie.scenario = h.EBOOK_MODE)
      · rw [if_pos hg]
        cases hfind : mdnie_find_table h w.mdnie with
        | none => simp
        | some r =>
          cases hseq : ((w.cat.deref r).tune h.MDNIE_CMD1).sequence with
          | none => simp [hseq]
          | some seq => simp [hseq, hm]
      · rw [if_neg hg]
        simp
  unfold level_invariant
  rw [hfields.1, hfields.2]
  exact hinv

theorem fb_notifier_callback_levels (h : Header) (x : Ext) (w : World) (event : Nat)
    (fb_blank : Int) (hinv : level_invariant h w.mdnie) :
    level_invariant h (fb_notifier_callback h x w event fb_blank).1.mdnie := by
  unfold fb_notifier_callback
  split
  · exact hinv
  · split
    · exact mdnie_update_levels h x _ hinv
    · split
      · exact hinv
      · exact hinv

theorem run_calls_levels (h : Header) (x : Ext) (calls : List Call) (w : World)
    (hinv : level_invariant h w.mdnie) : level_invariant h (run_calls h x w calls).mdnie := by
  induction calls generalizing w with
  | nil => exact hinv
  | cons c calls ih =>
    apply ih (c.run h x w)
    cases c with
    | power event fb_blank => exact fb_notifier_callback_levels h x w event fb_blank hinv
    | setter c =>
      cases c with
      | mode ret value count => exact mode_store_levels h x w ret value count hinv
      | scenario ret value count => exact scenario_store_levels h x w ret value count hinv
      | tuning buf count => exact tuning_store_levels h x w buf count hinv
      | accessibility ret value sv count =>
        exact accessibility_store_levels h x w ret value sv count hinv
      | bypass ret value count => exact bypass_store_levels h x w ret value count hinv
      | lux ret value count => exact lux_store_levels h x w ret value count hinv
      | sensorRGB ret r g b count => exact sensorRGB_store_levels h x w ret r g b count hinv

theorem mdnie_register_levels (h : Header) (x : Ext) (cat : Catalog) (bufsize : Nat)
    (class_ok alloc_ok device_ok : Bool) (w0 : World)
    (hreg : (mdnie_register h x cat bufsize class_ok alloc_ok device_ok).1 = some w0) :
    level_invariant h w0.mdnie := by
  unfold mdnie_register at hreg
  split at hreg
  · exact absurd hreg (by simp)
  · split at hreg
    · exact absurd hreg (by simp)
    · split at hreg
      · exact absurd hreg (by simp)
      · simp only [Option.some.injEq] at hreg
        rw [← hreg]
        exact mdnie_update_levels h x _ ⟨Or.inl rfl, Or.inl rfl⟩

/-- C3. Whenever the accessibility kind is not OFF, whatever the scenario, mode
and HBM level, `mdnie_find_table` returns the address of
`accessibility_table[accessibility]`. This holds in every state whose
`accessibility` is a kind of the enum (below `ACCESSIBILITY_MAX`), and so in
every state the driver reaches from `mdnie_register` by setter calls and
framebuffer events: `accessibility_store` stores no other value. -/
theorem find_table_accessibility_priority (h : Header) :
    (∀ m : mdnie_info, m.accessibility < h.ACCESSIBILITY_MAX →
      m.accessibility ≠ ACCESSIBILITY_OFF →
      mdnie_find_table h m = some (TableRef.accessibility m.accessibility)) ∧
    (∀ (x : Ext) (cat : Catalog) (bufsize : Nat) (class_ok alloc_ok device_ok : Bool)
      (w0 : World) (calls : List Call),
      (mdnie_register h x cat bufsize class_ok alloc_ok device_ok).1 = some w0 →
      (run_calls h x w0 calls).mdnie.accessibility ≠ ACCESSIBILITY_OFF →
      mdnie_find_table h (run_calls h x w0 calls).mdnie =
        some (TableRef.accessibility (run_calls h x w0 calls).mdnie.accessibility)) := by
  refine ⟨fun m hmax hoff => find_table_accessibility_wins h m hoff hmax, ?_⟩
  intro x cat bufsize class_ok alloc_ok device_ok w0 calls hreg hoff
  have hinv := run_calls_levels h x calls w0
    (mdnie_register_levels h x cat bufsize class_ok alloc_ok device_ok w0 hreg)
  rcases hinv.1 with hzero | hmax
  · exact absurd hzero hoff
  · exact find_table_accessibility_wins h _ hoff hmax

/-- Witness of C3: after registration, a lux reading that turns HBM on, the
camera scenario and the colour blind kind, the accessibility table is selected. -/
theorem find_table_accessibility_priority_witness :
    (run_calls demo_header demo_ext demo_registered
      [Call.setter (Setter.lux 0 50000 6), Call.setter (Setter.scenario 0 4 2),
        Call.setter (Setter.accessibility 1 2 [] 2)]).mdnie.hbm = 1 ∧
    mdnie_find_table demo_header
      (run_calls demo_header demo_ext demo_registered
        [Call.setter (Setter.lux 0 50000 6), Call.setter (Setter.scenario 0 4 2),
          Call.setter (Setter.accessibility 1 2 [] 2)]).mdnie =
      some (TableRef.accessibility
        (run_calls demo_header demo_ext demo_registered
          [Call.setter (Setter.lux 0 50000 6), Call.setter (Setter.scenario 0 4 2),
            Call.setter (Setter.accessibility 1 2 [] 2)]).mdnie.accessibility) :=
  ⟨by decide,
    (find_table_accessibility_priority demo_header).2 demo_ext demo_catalog 256 true true true
      demo_registered
      [Call.setter (Setter.lux 0 50000 6), Call.setter (Setter.scenario 0 4 2),
        Call.setter (Setter.accessibility 1 2 [] 2)] rfl (by decide)⟩

/-- C4. With accessibility OFF and an HBM level that is not OFF, whatever the
scenario and mode, `mdnie_find_table` returns the address of `hbm_table[hbm]`.
This holds in every state whose `hbm` is a level of the enum (below `HBM_MAX`),
and so in every state the driver reaches from `mdnie_register` by setter calls
and framebuffer events, given that `get_hbm_index` (declared outside the source
tree) returns levels of the enum: `lux_store` stores nothing else. -/
theorem find_table_hbm_priority (h : Header) :
    (∀ m : mdnie_info, m.hbm < h.HBM_MAX → m.accessibility = ACCESSIBILITY_OFF →
      m.hbm ≠ HBM_OFF → mdnie_find_table h m = some (TableRef.hbm m.hbm)) ∧
    ((∀ lux : Int, h.get_hbm_index lux < h.HBM_MAX) →
      ∀ (x : Ext) (cat : Catalog) (bufsize : Nat) (class_ok alloc_ok device_ok : Bool)
        (w0 : World) (calls : List Call),
        (mdnie_register h x cat bufsize class_ok alloc_ok device_ok).1 = some w0 →
        (run_calls h x w0 calls).mdnie.accessibility = ACCESSIBILITY_OFF →
        (run_calls h x w0 calls).mdnie.hbm ≠ HBM_OFF →
        mdnie_find_table h (run_calls h x w0 calls).mdnie =
          some (TableRef.hbm (run_calls h x w0 calls).mdnie.hbm)) := by
  refine ⟨fun m hmax hacc hoff => find_table_hbm_wins h m hacc hoff hmax, ?_⟩
  intro hlevel x cat bufsize class_ok alloc_ok device_ok w0 calls hreg hacc hoff
  have hinv := run_calls_levels h x calls w0
    (mdnie_register_levels h x cat bufsize class_ok alloc_ok device_ok w0 hreg)
  rcases hinv.2 with hzero | ⟨lux, hlux⟩
  · exact absurd hzero hoff
  · exact find_table_hbm_wins h _ hacc hoff (by rw [hlux]; exact hlevel lux)

/-- Witness of C4: after registration, the e-mail scenario and a lux reading
above the demo threshold, the HBM table is selected. -/
theorem find_table_hbm_priority_witness :
    mdnie_find_table demo_header
      (run_calls demo_header demo_ext demo_registered
        [Call.setter (Setter.scenario 0 10 3), Call.setter (Setter.lux 0 50000 6)]).mdnie =
      some (TableRef.hbm 1) :=
  (find_table_hbm_priority demo_header).2
    (fun lux => by simp only [demo_header]; split <;> decide)
    demo_ext demo_catalog 256 true true true demo_registered
    [Call.setter (Setter.scenario 0 10 3), Call.setter (Setter.lux 0 50000 6)]
    rfl (by decide) (by decide)

end Mdnie
